import Mathlib

/-!
# Verification development for `intern/openvdb/intern/openvdb_mesher.h`

The header converts a sparse scalar volume into a polygon mesh and sharpens
the result.  This file embeds its operations in Lean and proves properties
of them.

## Numeric model

`float` and `double` values are modelled by `Flt`: finite values carry an exact
rational, and the IEEE-754 special values (negative zero, the two infinities
and NaN) are separate constructors.  Arithmetic on finite values is exact
(rounding, overflow and underflow are not modelled); the special values follow
the IEEE-754 rules (`1/0 = inf`, `0 * inf = NaN`, every ordered comparison
with NaN is false, `-0 = +0` under comparison).  Conversions between `Vec3s`
and `Vec3d` are the identity in this model.
-/

namespace OpenVDBMesher

/-! ## Floating-point values -/

/-- An IEEE-754 value: `num q` is the finite value `q` (`num 0` is `+0`),
`negZero` is `-0`. -/
inductive Flt where
  | num (q : ℚ)
  | negZero
  | pinf
  | ninf
  | nan
  deriving DecidableEq

namespace Flt

/-- The sign bit of a value (NaN is given sign `false`). -/
def signBit : Flt → Bool
  | num q => decide (q < 0)
  | negZero => true
  | pinf => false
  | ninf => true
  | nan => false

/-- Zero with the given sign bit. -/
def zero (s : Bool) : Flt := if s then negZero else num 0

/-- Infinity with the given sign bit. -/
def inf (s : Bool) : Flt := if s then ninf else pinf

/-- The rational value of a finite `Flt`, `none` for infinities and NaN. -/
def toRat? : Flt → Option ℚ
  | num q => some q
  | negZero => some 0
  | _ => none

/-- NaN test. -/
def isNaN : Flt → Bool
  | nan => true
  | _ => false

/-- Unary minus: flips the sign bit. -/
def neg : Flt → Flt
  | num q => if q = 0 then negZero else num (-q)
  | negZero => num 0
  | pinf => ninf
  | ninf => pinf
  | nan => nan

/-- IEEE addition (round-to-nearest sign rule for exact zero sums). -/
def add (a b : Flt) : Flt :=
  match a.toRat?, b.toRat? with
  | some x, some y =>
      if x + y = 0 then zero (a.signBit && b.signBit) else num (x + y)
  | some _, none => b
  | none, some _ => a
  | none, none =>
      if a.isNaN || b.isNaN then nan
      else if a.signBit = b.signBit then a else nan

/-- IEEE subtraction, `a + (-b)`. -/
def sub (a b : Flt) : Flt := add a (neg b)

/-- IEEE multiplication. -/
def mul (a b : Flt) : Flt :=
  match a.toRat?, b.toRat? with
  | some x, some y =>
      if x * y = 0 then zero (xor a.signBit b.signBit) else num (x * y)
  | some x, none =>
      if b.isNaN || x = 0 then nan else inf (xor a.signBit b.signBit)
  | none, some y =>
      if a.isNaN || y = 0 then nan else inf (xor a.signBit b.signBit)
  | none, none =>
      if a.isNaN || b.isNaN then nan else inf (xor a.signBit b.signBit)

/-- IEEE division. -/
def div (a b : Flt) : Flt :=
  match a.toRat?, b.toRat? with
  | some x, some y =>
      if y = 0 then (if x = 0 then nan else inf (xor a.signBit b.signBit))
      else if x = 0 then zero (xor a.signBit b.signBit)
      else num (x / y)
  | some _, none =>
      if b.isNaN then nan else zero (xor a.signBit b.signBit)
  | none, some _ =>
      if a.isNaN then nan else inf (xor a.signBit b.signBit)
  | none, none => nan

/-- IEEE `<`: false whenever an operand is NaN. -/
def lt (a b : Flt) : Bool :=
  match a, b with
  | nan, _ => false
  | _, nan => false
  | _, ninf => false
  | pinf, _ => false
  | ninf, _ => true
  | _, pinf => true
  | num x, num y => decide (x < y)
  | num x, negZero => decide (x < 0)
  | negZero, num y => decide (0 < y)
  | negZero, negZero => false

/-- IEEE `>`. -/
def gt (a b : Flt) : Bool := lt b a

/-- IEEE `<=`: false whenever an operand is NaN. -/
def le (a b : Flt) : Bool :=
  match a, b with
  | nan, _ => false
  | _, nan => false
  | ninf, _ => true
  | _, pinf => true
  | _, ninf => false
  | pinf, _ => false
  | num x, num y => decide (x ≤ y)
  | num x, negZero => decide (x ≤ 0)
  | negZero, num y => decide (0 ≤ y)
  | negZero, negZero => true

/-- IEEE `>=`. -/
def ge (a b : Flt) : Bool := le b a

/-- IEEE `==`: NaN differs from everything, `-0 == +0`. -/
def feq (a b : Flt) : Bool := le a b && le b a

/-- A finite value (not an infinity, not NaN). -/
def isFinite (a : Flt) : Bool := a.toRat?.isSome

end Flt

/-! ## Vectors -/

/-- Three-component vector (`openvdb::Vec3s` / `openvdb::Vec3d`). -/
structure Vec3 where
  x : Flt
  y : Flt
  z : Flt
  deriving DecidableEq

namespace Vec3

/-- Vector with the three given rational components. -/
def ofRat (a b c : ℚ) : Vec3 := ⟨Flt.num a, Flt.num b, Flt.num c⟩

/-- Componentwise sum. -/
def add (a b : Vec3) : Vec3 := ⟨a.x.add b.x, a.y.add b.y, a.z.add b.z⟩

/-- Componentwise difference. -/
def sub (a b : Vec3) : Vec3 := ⟨a.x.sub b.x, a.y.sub b.y, a.z.sub b.z⟩

/-- Vector times scalar. -/
def scale (a : Vec3) (s : Flt) : Vec3 := ⟨a.x.mul s, a.y.mul s, a.z.mul s⟩

/-- Scalar divided by each component (`scalar / vec`). -/
def rdiv (s : Flt) (a : Vec3) : Vec3 := ⟨s.div a.x, s.div a.y, s.div a.z⟩

/-- Dot product, `x*x' + y*y' + z*z'` evaluated left to right. -/
def dot (a b : Vec3) : Flt := ((a.x.mul b.x).add (a.y.mul b.y)).add (a.z.mul b.z)

/-- All three components finite. -/
def isFinite (a : Vec3) : Bool := a.x.isFinite && a.y.isFinite && a.z.isFinite

end Vec3

/-! ## Ray and axis-aligned box -/

/-- The `Ray` class: origin, direction, reciprocal direction and, per axis,
the sign flag `invdir < 0`. -/
structure Ray where
  orig : Vec3
  dir : Vec3
  invdir : Vec3
  sign0 : Nat
  sign1 : Nat
  sign2 : Nat

/-- Conversion of a C++ `bool` to `int`. -/
def boolToInt (b : Bool) : Nat := if b then 1 else 0

/-- The `Ray` constructor: `invdir = 1 / dir`, `sign[k] = (invdir[k] < 0)`.
The source declares the member `invdir` as a reference (`Vec3f &invdir`) bound
to the temporary `1 / dir`; the model stores the value it is initialised
from. -/
def Ray.make (orig dir : Vec3) : Ray :=
  let invdir := Vec3.rdiv (Flt.num 1) dir
  { orig := orig, dir := dir, invdir := invdir,
    sign0 := boolToInt (invdir.x.lt (Flt.num 0)),
    sign1 := boolToInt (invdir.y.lt (Flt.num 0)),
    sign2 := boolToInt (invdir.z.lt (Flt.num 0)) }

/-- The `AABBox` class: `bounds[0]` and `bounds[1]`. -/
structure AABBox where
  b0 : Vec3
  b1 : Vec3

/-- Element `bounds[k]` for `k` in `{0, 1}`. -/
def AABBox.bounds (b : AABBox) (k : Nat) : Vec3 := if k = 0 then b.b0 else b.b1

/-- The method `AABBox::intersect(r, t)`.  The out-parameter `t` is threaded
through: the result is the returned `bool` and the final content of `t`
(untouched on the two early returns). -/
def AABBox.intersect (b : AABBox) (r : Ray) (t : Flt) : Bool × Flt :=
  let tmin := ((b.bounds r.sign0).x.sub r.orig.x).mul r.invdir.x
  let tmax := ((b.bounds (1 - r.sign0)).x.sub r.orig.x).mul r.invdir.x
  let tymin := ((b.bounds r.sign1).y.sub r.orig.y).mul r.invdir.y
  let tymax := ((b.bounds (1 - r.sign1)).y.sub r.orig.y).mul r.invdir.y
  if tmin.gt tymax || tymin.gt tmax then (false, t)
  else
    let tmin := if tymin.gt tmin then tymin else tmin
    let tmax := if tymax.lt tmax then tymax else tmax
    let tzmin := ((b.bounds r.sign2).z.sub r.orig.z).mul r.invdir.z
    let tzmax := ((b.bounds (1 - r.sign2)).z.sub r.orig.z).mul r.invdir.z
    if tmin.gt tzmax || tzmin.gt tmax then (false, t)
    else
      let tmin := if tzmin.gt tmin then tzmin else tmin
      let tmax := if tzmax.lt tmax then tzmax else tmax
      let t := tmin
      if t.lt (Flt.num 0) then
        let t := tmax
        if t.lt (Flt.num 0) then (false, t) else (true, t)
      else (true, t)

/-- Closed containment of a point in the box, with IEEE comparisons
(`bounds[0] <= p && p <= bounds[1]` on every axis). -/
def AABBox.contains (b : AABBox) (p : Vec3) : Bool :=
  b.b0.x.le p.x && p.x.le b.b1.x && b.b0.y.le p.y && p.y.le b.b1.y &&
    b.b0.z.le p.z && p.z.le b.b1.z

/-- The value is not above zero: negative, a zero, or NaN. -/
def Flt.NonPos (x : Flt) : Prop := Flt.lt (Flt.num 0) x = false

/-- The value is not below zero: positive, a zero, or NaN. -/
def Flt.NonNeg (x : Flt) : Prop := Flt.lt x (Flt.num 0) = false

/-! ## Loops and buffers -/

/-- Iterations `i, i+1, ...` of a loop body, `k` of them. -/
def forLoop {σ : Type} : Nat → Nat → (Nat → σ → σ) → σ → σ
  | 0, _, _, s => s
  | k + 1, i, body, s => forLoop k (i + 1) body (body i s)

/-- The loop `for (i = b; i < e; ++i) body`, as used with a
`tbb::blocked_range<size_t>`; the `int` counters of the source are taken not
to overflow. -/
def forRange {σ : Type} (b e : Nat) (body : Nat → σ → σ) (s : σ) : σ :=
  forLoop (e - b) b body s

/-- The statement `xs[i] = f(xs[i])` on a `std::vector` (no effect in the
model when `i` is out of bounds, where the source is undefined). -/
def updateAt {α : Type} (xs : List α) (i : Nat) (f : α → α) : List α :=
  match xs[i]? with
  | some a => xs.set i (f a)
  | none => xs

/-! ## Voxel coordinates and the index grid -/

/-- Integer voxel coordinate (`openvdb::Coord`). -/
structure Coord where
  x : Int
  y : Int
  z : Int
  deriving DecidableEq

/-- Coordinate sum. -/
def Coord.add (a b : Coord) : Coord := ⟨a.x + b.x, a.y + b.y, a.z + b.z⟩

/-- Modelled from the spec: the first 18 entries of the table
`openvdb::util::COORD_OFFSETS`, which is declared outside this header: the 6
face neighbours followed by the 12 edge neighbours (the 8 corner offsets are
not visited). -/
def COORD_OFFSETS : List Coord :=
  [⟨1, 0, 0⟩, ⟨-1, 0, 0⟩, ⟨0, 1, 0⟩, ⟨0, -1, 0⟩, ⟨0, 0, 1⟩, ⟨0, 0, -1⟩,
   ⟨1, 0, -1⟩, ⟨-1, 0, -1⟩, ⟨1, 0, 1⟩, ⟨-1, 0, 1⟩,
   ⟨1, 1, 0⟩, ⟨-1, 1, 0⟩, ⟨1, -1, 0⟩, ⟨-1, -1, 0⟩,
   ⟨0, -1, 1⟩, ⟨0, -1, -1⟩, ⟨0, 1, 1⟩, ⟨0, 1, -1⟩]

/-- The index grid as seen through a `ValueAccessor`: `getValue` returns the
stored value of a voxel, `isValueOn` its active state; `probeValue(c, v)`
returns `isValueOn c` and stores `getValue c` in `v`. -/
structure IndexTree where
  getValue : Coord → Int
  isValueOn : Coord → Bool

/-- The part of `OpenVDBLevelSet` read by the mask builder: the lookup table
`get_vert_tri()` and the accessor `face_normal`. -/
structure LevelSet where
  vert_tri : List Nat
  face_normal : Nat → Vec3

/-- Element `vert_tri[idx]` (the source is undefined out of bounds; the model
returns 0 there). -/
def LevelSet.vertTri (lvl : LevelSet) (idx : Int) : Nat := lvl.vert_tri.getD idx.toNat 0

/-- A leaf of the boolean mask tree: its voxels with their on/off state. -/
abbrev Leaf := List (Coord × Bool)

/-! ## `GenAdaptivityMaskOp` -/

/-- The function `std::max(a, b)` on floats: `(a < b) ? b : a`. -/
def Flt.stdMax (a b : Flt) : Flt := if a.lt b then b else a

/-- The function `std::min(a, b)` on floats: `(b < a) ? b : a`. -/
def Flt.stdMin (a b : Flt) : Flt := if b.lt a then b else a

/-- The members of `GenAdaptivityMaskOp` other than the leaf manager, which
is passed explicitly as the state that `operator()` mutates. -/
structure GenAdaptivityMaskOp where
  mLvl : LevelSet
  mIndexTree : IndexTree
  mEdgeTolerance : Flt

/-- The constructor: stores the members and clamps the tolerance with
`std::max(0.0f, .)` then `std::min(1.0f, .)`. -/
def GenAdaptivityMaskOp.make (lvl : LevelSet) (indexTree : IndexTree) (edgetolerance : Flt) :
    GenAdaptivityMaskOp :=
  let tol := Flt.stdMax (Flt.num 0) edgetolerance
  let tol := Flt.stdMin (Flt.num 1) tol
  { mLvl := lvl, mIndexTree := indexTree, mEdgeTolerance := tol }

/-- The test made on one neighbour offset inside the 18-iteration loop: the
neighbour is active in the index grid with an index different from `idx`, and
the dot product of the two face normals is below the tolerance. -/
def GenAdaptivityMaskOp.neighbourTest (op : GenAdaptivityMaskOp) (ijk : Coord) (idx : Int)
    (normal : Vec3) (offset : Coord) : Bool :=
  let nijk := ijk.add offset
  let tmpIdx := op.mIndexTree.getValue nijk
  if op.mIndexTree.isValueOn nijk && tmpIdx != idx then
    let primOffset := op.mLvl.vertTri tmpIdx
    let tmpN := op.mLvl.face_normal primOffset
    (normal.dot tmpN).lt op.mEdgeTolerance
  else false

/-- The loop `for (i = 0; i < 18; ++i)` with its `break`: the flag
`edgeVoxel` at loop exit, over the offsets still to visit. -/
def GenAdaptivityMaskOp.neighbourLoop (op : GenAdaptivityMaskOp) (ijk : Coord) (idx : Int)
    (normal : Vec3) : List Coord → Bool
  | [] => false
  | offset :: rest =>
      if op.neighbourTest ijk idx normal offset then true
      else neighbourLoop op ijk idx normal rest

/-- The flag `edgeVoxel` computed for the on voxel `ijk`. -/
def GenAdaptivityMaskOp.edgeVoxel (op : GenAdaptivityMaskOp) (ijk : Coord) : Bool :=
  let idx := op.mIndexTree.getValue ijk
  let primOffset := op.mLvl.vertTri idx
  let normal := op.mLvl.face_normal primOffset
  op.neighbourLoop ijk idx normal COORD_OFFSETS

/-- The body of the value-on iteration over one leaf: every on voxel whose
`edgeVoxel` flag is false is switched off; off voxels are not visited. -/
def GenAdaptivityMaskOp.processLeaf (op : GenAdaptivityMaskOp) (leaf : Leaf) : Leaf :=
  leaf.map fun v => if v.2 then (if op.edgeVoxel v.1 then v else (v.1, false)) else v

/-- The method `operator()(range)`: the leaves `range.begin() .. range.end()-1`
of the leaf manager are processed in turn. -/
def GenAdaptivityMaskOp.operator (op : GenAdaptivityMaskOp) (leafs : List Leaf)
    (rbegin rend : Nat) : List Leaf :=
  forRange rbegin rend (fun n ls => updateAt ls n op.processLeaf) leafs

/-- The method `run(threaded)`: the sequential branch applies `operator()` to
the whole leaf range. -/
def GenAdaptivityMaskOp.run (op : GenAdaptivityMaskOp) (leafs : List Leaf) : List Leaf :=
  op.operator leafs 0 leafs.length

/-- Reference surface of the sharp-edge example: triangle 0 faces `+z`,
triangle 1 faces `+x`. -/
def exampleEdgeLvl : LevelSet :=
  { vert_tri := [0, 1],
    face_normal := fun t => if t = 0 then Vec3.ofRat 0 0 1 else Vec3.ofRat 1 0 0 }

/-- Index grid of the sharp-edge example: voxel `(0,0,0)` maps to index 0 and
voxel `(1,0,0)` to index 1; no other voxel is active. -/
def exampleEdgeTree : IndexTree :=
  { getValue := fun c => if c = ⟨1, 0, 0⟩ then 1 else 0,
    isValueOn := fun c => c = ⟨0, 0, 0⟩ || c = ⟨1, 0, 0⟩ }

/-- Mask of the sharp-edge example: one leaf with both voxels on. -/
def exampleEdgeLeafs : List Leaf := [[(⟨0, 0, 0⟩, true), (⟨1, 0, 0⟩, true)]]

/-- Reference surface of the flat example: every triangle faces `+z`. -/
def exampleFlatLvl : LevelSet :=
  { vert_tri := [0, 1, 2, 3], face_normal := fun _ => Vec3.ofRat 0 0 1 }

/-- Index grid of the flat example: a 2x2 patch of active voxels in the plane
`z = 0`, each with its own index. -/
def exampleFlatTree : IndexTree :=
  { getValue := fun c => c.x + 2 * c.y,
    isValueOn := fun c => c.z = 0 && (c.x = 0 || c.x = 1) && (c.y = 0 || c.y = 1) }

/-- Mask of the flat example: one leaf with the four voxels on. -/
def exampleFlatLeafs : List Leaf :=
  [[(⟨0, 0, 0⟩, true), (⟨1, 0, 0⟩, true), (⟨0, 1, 0⟩, true), (⟨1, 1, 0⟩, true)]]

/-! ## `PrimCpyOp` -/

/-- Triangle vertex indices (`openvdb::Vec3I`, 32-bit unsigned components). -/
structure Vec3I where
  v0 : Nat
  v1 : Nat
  v2 : Nat
  deriving DecidableEq

/-- Four-slot primitive record (`openvdb::Vec4I`). -/
structure Vec4I where
  v0 : Nat
  v1 : Nat
  v2 : Nat
  v3 : Nat
  deriving DecidableEq

/-- Modelled from the spec: the constant `openvdb::util::INVALID_IDX`, declared
outside this header: the "invalid index" sentinel, the largest 32-bit
unsigned value. -/
def INVALID_IDX : Nat := 4294967295

/-- The record built by one iteration of `PrimCpyOp::operator()`: slots 0..2
copied from the triangle, slot 3 set to `INVALID_IDX`. -/
def PrimCpyOp.prim (tri : Vec3I) : Vec4I := ⟨tri.v0, tri.v1, tri.v2, INVALID_IDX⟩

/-- The method `PrimCpyOp::operator()(r)`: `triangles` is
`mLvl.get_triangles()`, `primList` the vector behind `mPrimList`
(`get_triangles()[i]` is undefined out of bounds in the source; the model
reads a zero triangle there). -/
def PrimCpyOp.operator (triangles : List Vec3I) (primList : List Vec4I) (rbegin rend : Nat) :
    List Vec4I :=
  forRange rbegin rend
    (fun i pl => updateAt pl i (fun _ => PrimCpyOp.prim (triangles.getD i ⟨0, 0, 0⟩))) primList

/-! ## `doVolumeToMesh` and `volumeToMesh` -/

/-- An `openvdb::tools::PolygonPool`: `numQuads()` and `numTriangles()` are the
lengths of the two lists, `quad(i)` and `triangle(i)` their elements. -/
structure PolygonPool where
  quads : List Vec4I
  triangles : List Vec3I

/-- The state of the `VolumeToMesh` object after `mesher(grid)`: its point
list and its polygon pool list. -/
structure VolumeToMesh where
  pointList : List Vec3
  polygonPoolList : List PolygonPool

/-- The assignment `xs[i] = v` on a `std::vector`, which is only defined
inside the bounds of the vector. -/
def writeAt {α : Type} (xs : List α) (i : Nat) (v : α) : Option (List α) :=
  if i < xs.length then some (xs.set i v) else none

/-- A loop whose body may fail (an out-of-bounds write). -/
def forLoopM {σ : Type} : Nat → Nat → (Nat → σ → Option σ) → σ → Option σ
  | 0, _, _, s => some s
  | k + 1, i, body, s => (body i s).bind (forLoopM k (i + 1) body)

/-- The loop `for (i = b; i < e; ++i) body` with a body that may fail. -/
def forRangeM {σ : Type} (b e : Nat) (body : Nat → σ → Option σ) (s : σ) : Option σ :=
  forLoopM (e - b) b body s

/-- The variables of the primitive copy pass. -/
structure CopyState where
  quads : List Vec4I
  triangles : List Vec3I
  qIdx : Nat
  tIdx : Nat

/-- The statement `quads[qIdx++] = polygons.quad(i)`. -/
def copyQuad (polygons : PolygonPool) (i : Nat) (st : CopyState) : Option CopyState :=
  (writeAt st.quads st.qIdx (polygons.quads.getD i ⟨0, 0, 0, 0⟩)).map
    fun q => { st with quads := q, qIdx := st.qIdx + 1 }

/-- The statement `triangles[tIdx++] = polygons.triangle(i)`. -/
def copyTriangle (polygons : PolygonPool) (i : Nat) (st : CopyState) : Option CopyState :=
  (writeAt st.triangles st.tIdx (polygons.triangles.getD i ⟨0, 0, 0⟩)).map
    fun t => { st with triangles := t, tIdx := st.tIdx + 1 }

/-- The body of the outer copy loop for pool `n`: its quads, then its
triangles. -/
def copyPool (polygonPoolList : List PolygonPool) (n : Nat) (st : CopyState) :
    Option CopyState :=
  let polygons := polygonPoolList.getD n ⟨[], []⟩
  (forRangeM 0 polygons.quads.length (copyQuad polygons) st).bind
    (forRangeM 0 polygons.triangles.length (copyTriangle polygons))

/-- The counting loop that precedes the allocation: `(numQuads, numTriangles)`. -/
def countPrimitives (polygonPoolList : List PolygonPool) : Nat × Nat :=
  forRange 0 polygonPoolList.length
    (fun n acc =>
      let polygons := polygonPoolList.getD n ⟨[], []⟩
      (acc.1 + polygons.quads.length, acc.2 + polygons.triangles.length))
    (0, 0)

/-- The scalar overload of `doVolumeToMesh`, from the state of the mesher after
`mesher(grid)` on: the outputs `(points, triangles, quads)`, or `none` when a
write of the copy pass falls outside its array.  The point copy
(`PointListCopy`, an OpenVDB helper) fills `points[i] = pointList[i]`. -/
def doVolumeToMesh (mesher : VolumeToMesh) :
    Option (List Vec3 × List Vec3I × List Vec4I) :=
  let points := mesher.pointList
  let polygonPoolList := mesher.polygonPoolList
  let counts := countPrimitives polygonPoolList
  let triangles : List Vec3I := List.replicate counts.2 ⟨0, 0, 0⟩
  let quads : List Vec4I := List.replicate counts.1 ⟨0, 0, 0, 0⟩
  (forRangeM 0 polygonPoolList.length (copyPool polygonPoolList)
      { quads := quads, triangles := triangles, qIdx := 0, tIdx := 0 }).map
    fun st => (points, st.triangles, st.quads)

/-- How a call ends in the model: it returns a value, it throws an exception
(class and message), or it does not compile because no overload is viable. -/
inductive CallOutcome (α : Type) where
  | returned (a : α)
  | thrown (cls : String) (message : String)
  | illFormed

/-- The signature of one overload of `doVolumeToMesh`: the number of
parameters, the `enable_if` condition on `is_scalar<ValueType>`, and whether
its body is the `OPENVDB_THROW(TypeError, ..)`. -/
structure OverloadSig where
  arity : Nat
  enabledWhenScalar : Bool
  throwsTypeError : Bool

/-- The two overloads of `doVolumeToMesh` in this header: the scalar one takes
9 parameters (grid, points, triangles, quads, isovalue, adaptivity,
relaxDisorientedTriangles, adaptivityMask, refGrid); the non-scalar one takes 8
(it has no `refGrid`). -/
def doVolumeToMeshOverloads : List OverloadSig :=
  [⟨9, true, false⟩, ⟨8, false, true⟩]

/-- Overload resolution for a call with `nargs` arguments on a grid whose value
type is scalar or not: the overloads that survive `enable_if` and take exactly
`nargs` parameters (no overload has default arguments). -/
def viableOverloads (isScalar : Bool) (nargs : Nat) : List OverloadSig :=
  doVolumeToMeshOverloads.filter fun o => o.enabledWhenScalar == isScalar && o.arity == nargs

/-- A call `doVolumeToMesh(..)` with `nargs` arguments. -/
def callDoVolumeToMesh (isScalar : Bool) (nargs : Nat) (mesher : VolumeToMesh) :
    CallOutcome (Option (List Vec3 × List Vec3I × List Vec4I)) :=
  match viableOverloads isScalar nargs with
  | [o] =>
      if o.throwsTypeError then
        CallOutcome.thrown "TypeError" "volume to mesh conversion is supported only for scalar grids"
      else CallOutcome.returned (doVolumeToMesh mesher)
  | _ => CallOutcome.illFormed

/-- The entry point `volumeToMesh`: it forwards its 9 arguments to
`doVolumeToMesh`. -/
def volumeToMesh (isScalar : Bool) (mesher : VolumeToMesh) :
    CallOutcome (Option (List Vec3 × List Vec3I × List Vec4I)) :=
  callDoVolumeToMesh isScalar 9 mesher

/-- Triangle list of the primitive-copy example. -/
def exampleTriangles : List Vec3I := [⟨0, 1, 2⟩, ⟨2, 1, 3⟩, ⟨4, 5, 6⟩]

/-- Preallocated record list of the primitive-copy example. -/
def examplePrimList : List Vec4I := [⟨9, 9, 9, 9⟩, ⟨9, 9, 9, 9⟩, ⟨9, 9, 9, 9⟩]

/-! ## `SharpenFeaturesOp` -/

/-- The conversion `int(std::floor(x))`.  The source is undefined for
infinities and NaN (the model returns 0 there) and `int` is taken not to
overflow. -/
def Flt.floorInt : Flt → Int
  | Flt.num q => Int.floor q
  | _ => 0

/-- The conversion `double(n)` of an `int`. -/
def Flt.ofInt (n : Int) : Flt := Flt.num n

/-- A floating-point bounding box (`openvdb::BBoxd`). -/
structure BBox where
  min : Vec3
  max : Vec3

/-- Modelled from the spec: `BBoxd::expand(Vec3d)`, an OpenVDB method whose
definition is outside this header; the spec describes the call
`cell.expand(Vec3d(0.3, 0.3, 0.3))` as expanding the cell by the margin on
each side. -/
def BBox.expand (b : BBox) (margin : Vec3) : BBox := ⟨b.min.sub margin, b.max.add margin⟩

/-- Modelled from the spec: `BBoxd::isInside(Vec3d)`, an OpenVDB method
declared outside this header: the point lies in the closed box. -/
def BBox.isInside (b : BBox) (p : Vec3) : Bool :=
  b.min.x.le p.x && p.x.le b.max.x && b.min.y.le p.y && p.y.le b.max.y &&
    b.min.z.le p.z && p.z.le b.max.z

/-- The point lies on the boundary of the box: inside the closed box, with a
coordinate equal to one of the two bounds of its axis. -/
def BBox.onBoundary (b : BBox) (p : Vec3) : Bool :=
  b.isInside p &&
    (p.x.feq b.min.x || p.x.feq b.max.x || p.y.feq b.min.y || p.y.feq b.max.y ||
      p.z.feq b.min.z || p.z.feq b.max.z)

/-- The members of `SharpenFeaturesOp` and the library routines its
`operator()` calls.  `getEdgeData` is `mEdgeData.getEdgeData` (the points and
the primitive ids appended to the cleared vectors), `face_normal` the accessor
of `mRefGeo`, `worldToIndex` / `indexToWorld` the maps of `mXForm`,
`mMaskTree` the optional mask (`isValueOn`), `findFeaturePoint` is
`openvdb::tools::findFeaturePoint` and `normalize` is `Vec3s::normalize`.  The
output points of `mRefGeo` are passed explicitly as the state. -/
structure SharpenFeaturesOp where
  getEdgeData : Coord → List Vec3 × List Nat
  face_normal : Nat → Vec3
  worldToIndex : Vec3 → Vec3
  indexToWorld : Vec3 → Vec3
  mMaskTree : Option (Coord → Bool)
  findFeaturePoint : List Vec3 → List Vec3 → Vec3
  normalize : Vec3 → Vec3

/-- The voxel `ijk` of a world-space position: `worldToIndex`, then the floor
of each component. -/
def SharpenFeaturesOp.voxelOf (op : SharpenFeaturesOp) (p : Vec3) : Coord :=
  let pos := op.worldToIndex p
  ⟨pos.x.floorInt, pos.y.floorInt, pos.z.floorInt⟩

/-- The test `maskAcc && !maskAcc->isValueOn(ijk)` that skips a point. -/
def SharpenFeaturesOp.maskedOut (op : SharpenFeaturesOp) (ijk : Coord) : Bool :=
  match op.mMaskTree with
  | some mask => !mask ijk
  | none => false

/-- The loop over the intersection points: the sum `avgP` (starting from
zero) and the list `normals`, whose `n`-th entry is `face_normal(n)`. -/
def SharpenFeaturesOp.gather (op : SharpenFeaturesOp) (points : List Vec3) : Vec3 × List Vec3 :=
  forRange 0 points.length
    (fun n acc => (acc.1.add (points.getD n (Vec3.ofRat 0 0 0)), acc.2 ++ [op.face_normal n]))
    (Vec3.ofRat 0 0 0, [])

/-- The unit cell of voxel `ijk`, expanded by 0.3. -/
def SharpenFeaturesOp.cellOf (ijk : Coord) : BBox :=
  BBox.expand
    ⟨⟨Flt.ofInt ijk.x, Flt.ofInt ijk.y, Flt.ofInt ijk.z⟩,
      ⟨Flt.ofInt (ijk.x + 1), Flt.ofInt (ijk.y + 1), Flt.ofInt (ijk.z + 1)⟩⟩
    (Vec3.ofRat (3 / 10) (3 / 10) (3 / 10))

/-- The clamp step, entered when the solved point is not inside the cell:
the ray from the solved point towards the average of the intersection points
is intersected with the cell, and on a hit the point moves to the hit
location.  `avgP` is the sum of the points and `n` their number; `distance`
is declared without a value and only written by `intersect`. -/
def SharpenFeaturesOp.clamp (op : SharpenFeaturesOp) (cell : BBox) (pos avgP : Vec3)
    (n : Nat) : Vec3 :=
  let org := pos
  let avgP := avgP.scale ((Flt.num 1).div (Flt.num n))
  let dir := op.normalize (avgP.sub org)
  let ray := Ray.make org dir
  let box : AABBox := ⟨cell.min, cell.max⟩
  let r := box.intersect ray Flt.nan
  if r.1 then org.add (dir.scale r.2) else pos

/-- The body of the loop of `operator()` for one point: the new content of
`result[i]` given its current content `p` (unchanged when the point is
skipped by the mask or has fewer than 2 intersection points). -/
def SharpenFeaturesOp.refine (op : SharpenFeaturesOp) (p : Vec3) : Vec3 :=
  let ijk := op.voxelOf p
  if op.maskedOut ijk then p
  else
    let points := (op.getEdgeData ijk).1
    let g := op.gather points
    let avgP := g.1
    let normals := g.2
    if points.length > 1 then
      let pos := op.findFeaturePoint points normals
      let cell := SharpenFeaturesOp.cellOf ijk
      let pos := if !cell.isInside pos then op.clamp cell pos avgP points.length else pos
      op.indexToWorld pos
    else p

/-- The method `operator()(r)`: `out_points` is `mRefGeo.get_out_points()`,
copied into `result`; the value is the vector passed to
`mRefGeo.set_out_points`. -/
def SharpenFeaturesOp.operator (op : SharpenFeaturesOp) (out_points : List Vec3)
    (rbegin rend : Nat) : List Vec3 :=
  forRange rbegin rend (fun i result => updateAt result i op.refine) out_points

/-- A reconstruction pass whose edge-intersection provider returns a single
intersection point for every voxel: identity transform, no mask. -/
def exampleSparseOp : SharpenFeaturesOp :=
  { getEdgeData := fun _ => ([Vec3.ofRat 0 0 (1 / 2)], [7]),
    face_normal := fun _ => Vec3.ofRat 0 0 1,
    worldToIndex := fun p => p,
    indexToWorld := fun p => p,
    mMaskTree := none,
    findFeaturePoint := fun _ _ => Vec3.ofRat 5 5 5,
    normalize := fun v => v }

/-- The centroid of the intersection points: their sum, starting from zero,
times the reciprocal of their number. -/
def centroid (points : List Vec3) : Vec3 :=
  (points.foldl Vec3.add (Vec3.ofRat 0 0 0)).scale ((Flt.num 1).div (Flt.num points.length))

/-- A reconstruction pass on the voxel `(0,0,0)`: two intersection points on
edges of the voxel, a solved point `(1/2, 3/2, 5/2)` outside the expanded
cell, identity transform, no mask; the vector from the solved point to the
centroid `(1/2, 0, 1/2)` has length `5/2`, so normalising scales it by `2/5`. -/
def exampleClampOp : SharpenFeaturesOp :=
  { getEdgeData := fun _ => ([Vec3.ofRat 0 0 (1 / 2), Vec3.ofRat 1 0 (1 / 2)], [3, 4]),
    face_normal := fun n => if n = 0 then Vec3.ofRat 0 0 1 else Vec3.ofRat 0 1 0,
    worldToIndex := fun p => p,
    indexToWorld := fun p => p,
    mMaskTree := none,
    findFeaturePoint := fun _ _ => Vec3.ofRat (1 / 2) (3 / 2) (5 / 2),
    normalize := fun v => v.scale (Flt.num (2 / 5)) }


/-- A reconstruction pass with a mask that is on only at voxel `(0,0,0)`: two
intersection points per voxel, a solved point `(1/2, 1/2, 6/5)` that lies
inside the expanded cell of voxel `(0,0,0)`, and a transform that doubles
index-space coordinates. -/
def exampleInsideOp : SharpenFeaturesOp :=
  { getEdgeData := fun _ => ([Vec3.ofRat 0 0 (1 / 2), Vec3.ofRat 1 0 (1 / 2)], [3, 4]),
    face_normal := fun n => if n = 0 then Vec3.ofRat 0 0 1 else Vec3.ofRat 0 1 0,
    worldToIndex := fun p => p.scale (Flt.num (1 / 2)),
    indexToWorld := fun p => p.scale (Flt.num 2),
    mMaskTree := some fun c => c = ⟨0, 0, 0⟩,
    findFeaturePoint := fun _ _ => Vec3.ofRat (1 / 2) (1 / 2) (6 / 5),
    normalize := fun v => v }

/-- The pass `op` with the primitive identifiers returned by the
edge-intersection provider replaced by `prims`; the intersection points and
every other member are kept. -/
def SharpenFeaturesOp.withPrimitives (op : SharpenFeaturesOp) (prims : Coord → List Nat) :
    SharpenFeaturesOp :=
  { op with getEdgeData := fun c => ((op.getEdgeData c).1, prims c) }

/-- The threaded branch of `run`: `tbb::parallel_for` splits the leaf range
into sub-ranges and applies `operator()` to each of them.  The sub-ranges
`parts` are executed in the order of the list; a call only writes leaves of
its own sub-range and reads the index grid, so any other schedule of the same
calls is one of these orders. -/
def GenAdaptivityMaskOp.runParts (op : GenAdaptivityMaskOp) (leafs : List Leaf)
    (parts : List (Nat × Nat)) : List Leaf :=
  parts.foldl (fun ls r => op.operator ls r.1 r.2) leafs

/-- The voxel `ijk` is on in the mask: some leaf holds it with the state on. -/
def maskIsOn (leafs : List Leaf) (ijk : Coord) : Prop :=
  ∃ leaf ∈ leafs, (ijk, true) ∈ leaf

/-- Index grid of the stray-voxel example: only the voxel `(1,0,0)` is
active, with index 1; every other voxel reads the background value 0. -/
def exampleStrayTree : IndexTree :=
  { getValue := fun c => if c = ⟨1, 0, 0⟩ then 1 else 0,
    isValueOn := fun c => c = ⟨1, 0, 0⟩ }

/-- Mask of the stray-voxel example: the voxel `(0,0,0)`, which is not active
in the index grid, is on. -/
def exampleStrayLeafs : List Leaf := [[(⟨0, 0, 0⟩, true)]]

/-- Workers that all copy the output buffer `base` before any of them
publishes (every call of `operator()` starts with
`result(mRefGeo.get_out_points())`), that own the ranges `workers`, and that
publish with `mRefGeo.set_out_points(result)` in the order of the list: the
content of the output slot after the last publication. -/
def SharpenFeaturesOp.publishAll (op : SharpenFeaturesOp) (base : List Vec3)
    (workers : List (Nat × Nat)) : List Vec3 :=
  workers.foldl (fun _ r => op.operator base r.1 r.2) base

/-- A reconstruction pass whose solved point coincides with the centroid of
the intersection points, both at `(-1, 1/2, 1/2)`, outside the expanded cell
of voxel `(0,0,0)`: identity transform, no mask.  The only vector `normalize`
is applied to is the zero vector, which it returns unchanged. -/
def exampleZeroDirOp : SharpenFeaturesOp :=
  { getEdgeData := fun _ => ([Vec3.ofRat (-1) (1 / 2) (1 / 2), Vec3.ofRat (-1) (1 / 2) (1 / 2)],
      [0, 1]),
    face_normal := fun _ => Vec3.ofRat 0 0 1,
    worldToIndex := fun p => p,
    indexToWorld := fun p => p,
    mMaskTree := none,
    findFeaturePoint := fun _ _ => Vec3.ofRat (-1) (1 / 2) (1 / 2),
    normalize := fun v => v }


namespace Flt

theorem nonPos_sub_of_le {a b : Flt} (h : le a b = true) : NonPos (sub a b) := by
  cases a <;> cases b <;> simp [le] at h <;>
    simp [NonPos, sub, neg, add, toRat?, lt, zero, signBit, isNaN] <;>
    (try split_ifs) <;> (try simp_all [lt, zero]) <;> (try split_ifs) <;> (try simp_all [lt])

theorem nonNeg_sub_of_le {a b : Flt} (h : le a b = true) : NonNeg (sub b a) := by
  cases a <;> cases b <;> simp [le] at h <;>
    simp [NonNeg, sub, neg, add, toRat?, lt, zero, signBit, isNaN] <;>
    (try split_ifs) <;> (try simp_all [lt, zero]) <;> (try split_ifs) <;> (try simp_all [lt]) <;>
    linarith

theorem nonPos_mul {x y : Flt} (hx : NonPos x) (hy : NonNeg y) : NonPos (mul x y) := by
  cases x <;> cases y <;> simp [NonPos, NonNeg, lt] at hx hy <;>
    simp [NonPos, mul, toRat?, lt, zero, inf, signBit, isNaN] <;>
    (try split_ifs) <;> (try simp_all [lt, zero, inf]) <;>
    (first | linarith | nlinarith | (exfalso; apply ‹¬ (_ : ℚ) = 0›; linarith))

theorem nonNeg_mul {x y : Flt} (hx : NonNeg x) (hy : NonNeg y) : NonNeg (mul x y) := by
  cases x <;> cases y <;> simp [NonPos, NonNeg, lt] at hx hy <;>
    simp [NonNeg, mul, toRat?, lt, zero, inf, signBit, isNaN] <;>
    (try split_ifs) <;> (try simp_all [lt, zero, inf]) <;>
    (first | linarith | nlinarith)

theorem nonPos_mul_neg {x y : Flt} (hx : NonNeg x) (hy : lt y (num 0) = true) :
    NonPos (mul x y) := by
  cases x <;> cases y <;> simp [NonPos, NonNeg, lt] at hx hy <;>
    simp [NonPos, mul, toRat?, lt, zero, inf, signBit, isNaN] <;>
    (try split_ifs) <;> (try simp_all [lt, zero, inf]) <;>
    (first | linarith | nlinarith)

theorem nonNeg_mul_neg {x y : Flt} (hx : NonPos x) (hy : lt y (num 0) = true) :
    NonNeg (mul x y) := by
  cases x <;> cases y <;> simp [NonPos, NonNeg, lt] at hx hy <;>
    simp [NonNeg, mul, toRat?, lt, zero, inf, signBit, isNaN] <;>
    (try split_ifs) <;> (try simp_all [lt, zero, inf]) <;>
    (first | linarith | nlinarith | (exfalso; apply ‹¬ (_ : ℚ) = 0›; linarith))

theorem not_gt_of_nonPos_nonNeg {a b : Flt} (ha : NonPos a) (hb : NonNeg b) :
    gt a b = false := by
  cases a <;> cases b <;> simp [NonPos, NonNeg, lt] at ha hb <;>
    simp [gt, lt] <;> linarith

theorem nonPos_ite {c : Prop} [Decidable c] {a b : Flt} (ha : NonPos a) (hb : NonPos b) :
    NonPos (if c then a else b) := by
  split_ifs <;> assumption

theorem nonNeg_ite {c : Prop} [Decidable c] {a b : Flt} (ha : NonNeg a) (hb : NonNeg b) :
    NonNeg (if c then a else b) := by
  split_ifs <;> assumption

/-- One slab of the box test when the origin lies between the two planes:
the near parameter is not positive and the far parameter is not negative. -/
theorem slab_signs (lo hi o inv : Flt) (h1 : le lo o = true) (h2 : le o hi = true) :
    NonPos (((if boolToInt (inv.lt (num 0)) = 0 then lo else hi).sub o).mul inv) ∧
    NonNeg (((if 1 - boolToInt (inv.lt (num 0)) = 0 then lo else hi).sub o).mul inv) := by
  by_cases hs : inv.lt (num 0) = true
  · simp only [boolToInt, hs, if_true]
    exact ⟨nonPos_mul_neg (nonNeg_sub_of_le h2) hs, nonNeg_mul_neg (nonPos_sub_of_le h1) hs⟩
  · have hs2 : inv.lt (num 0) = false := by simpa using hs
    simp only [boolToInt, hs2]
    exact ⟨nonPos_mul (nonPos_sub_of_le h1) hs2, nonNeg_mul (nonNeg_sub_of_le h2) hs2⟩

end Flt

/-! ## `AABBox::intersect` -/

theorem AABBox.bounds_x (b : AABBox) (k : Nat) :
    (b.bounds k).x = if k = 0 then b.b0.x else b.b1.x := by
  unfold AABBox.bounds; split_ifs <;> rfl

theorem AABBox.bounds_y (b : AABBox) (k : Nat) :
    (b.bounds k).y = if k = 0 then b.b0.y else b.b1.y := by
  unfold AABBox.bounds; split_ifs <;> rfl

theorem AABBox.bounds_z (b : AABBox) (k : Nat) :
    (b.bounds k).z = if k = 0 then b.b0.z else b.b1.z := by
  unfold AABBox.bounds; split_ifs <;> rfl

open Flt in
/-- When every slab has a near parameter that is not positive and a far
parameter that is not negative, no test of `intersect` rejects the ray. -/
theorem AABBox.intersect_of_signs (b : AABBox) (r : Ray) (t : Flt)
    (hx1 : NonPos (((b.bounds r.sign0).x.sub r.orig.x).mul r.invdir.x))
    (hx2 : NonNeg (((b.bounds (1 - r.sign0)).x.sub r.orig.x).mul r.invdir.x))
    (hy1 : NonPos (((b.bounds r.sign1).y.sub r.orig.y).mul r.invdir.y))
    (hy2 : NonNeg (((b.bounds (1 - r.sign1)).y.sub r.orig.y).mul r.invdir.y))
    (hz1 : NonPos (((b.bounds r.sign2).z.sub r.orig.z).mul r.invdir.z))
    (hz2 : NonNeg (((b.bounds (1 - r.sign2)).z.sub r.orig.z).mul r.invdir.z)) :
    (b.intersect r t).1 = true := by
  unfold AABBox.intersect
  simp only []
  generalize ((b.bounds r.sign0).x.sub r.orig.x).mul r.invdir.x = tmin at hx1 ⊢
  generalize ((b.bounds (1 - r.sign0)).x.sub r.orig.x).mul r.invdir.x = tmax at hx2 ⊢
  generalize ((b.bounds r.sign1).y.sub r.orig.y).mul r.invdir.y = tymin at hy1 ⊢
  generalize ((b.bounds (1 - r.sign1)).y.sub r.orig.y).mul r.invdir.y = tymax at hy2 ⊢
  generalize ((b.bounds r.sign2).z.sub r.orig.z).mul r.invdir.z = tzmin at hz1 ⊢
  generalize ((b.bounds (1 - r.sign2)).z.sub r.orig.z).mul r.invdir.z = tzmax at hz2 ⊢
  have hmin : NonPos (if tymin.gt tmin = true then tymin else tmin) := nonPos_ite hy1 hx1
  have hmax : NonNeg (if tymax.lt tmax = true then tymax else tmax) := nonNeg_ite hy2 hx2
  simp only [not_gt_of_nonPos_nonNeg hx1 hy2, not_gt_of_nonPos_nonNeg hy1 hx2, Bool.or_self,
    Bool.false_eq_true, if_false]
  generalize (if tymin.gt tmin = true then tymin else tmin) = tmin2 at hmin ⊢
  generalize (if tymax.lt tmax = true then tymax else tmax) = tmax2 at hmax ⊢
  have hmax3 : NonNeg (if tzmax.lt tmax2 = true then tzmax else tmax2) := nonNeg_ite hz2 hmax
  simp only [not_gt_of_nonPos_nonNeg hmin hz2, not_gt_of_nonPos_nonNeg hz1 hmax, Bool.or_self,
    Bool.false_eq_true, if_false]
  unfold NonNeg at hmax3
  rw [hmax3]
  split_ifs <;> first | rfl | contradiction

/-- C2: for every box and every ray whose origin lies inside the box (closed
containment, which forces min <= max on each axis), whatever the direction
(zero, infinite and NaN components included) and whatever the incoming content
of the out-parameter, `AABBox::intersect` returns `true`. -/
theorem AABBox.intersect_hit_of_origin_inside (b : AABBox) (o d : Vec3) (t : Flt)
    (h : b.contains o = true) : (b.intersect (Ray.make o d) t).1 = true := by
  simp only [AABBox.contains, Bool.and_eq_true] at h
  obtain ⟨⟨⟨⟨⟨hx1, hx2⟩, hy1⟩, hy2⟩, hz1⟩, hz2⟩ := h
  have hx := Flt.slab_signs b.b0.x b.b1.x o.x (Vec3.rdiv (Flt.num 1) d).x hx1 hx2
  have hy := Flt.slab_signs b.b0.y b.b1.y o.y (Vec3.rdiv (Flt.num 1) d).y hy1 hy2
  have hz := Flt.slab_signs b.b0.z b.b1.z o.z (Vec3.rdiv (Flt.num 1) d).z hz1 hz2
  apply AABBox.intersect_of_signs
  · simpa only [Ray.make, AABBox.bounds_x] using hx.1
  · simpa only [Ray.make, AABBox.bounds_x] using hx.2
  · simpa only [Ray.make, AABBox.bounds_y] using hy.1
  · simpa only [Ray.make, AABBox.bounds_y] using hy.2
  · simpa only [Ray.make, AABBox.bounds_z] using hz.1
  · simpa only [Ray.make, AABBox.bounds_z] using hz.2

/-- Witness for C2: the box `[-1,1]^3`, the origin on its corner `(-1,-1,-1)`
and the direction `(0, -0, NaN)`. -/
theorem AABBox.intersect_hit_of_origin_inside_witness :
    (AABBox.mk (Vec3.ofRat (-1) (-1) (-1)) (Vec3.ofRat 1 1 1)).contains
        (Vec3.ofRat (-1) (-1) (-1)) = true ∧
      ((AABBox.mk (Vec3.ofRat (-1) (-1) (-1)) (Vec3.ofRat 1 1 1)).intersect
        (Ray.make (Vec3.ofRat (-1) (-1) (-1)) ⟨Flt.num 0, Flt.negZero, Flt.nan⟩)
        Flt.nan).1 = true :=
  ⟨by decide!, AABBox.intersect_hit_of_origin_inside _ _ _ _ (by decide!)⟩

/-! ## Loops over buffers -/

theorem updateAt_getElem? {α : Type} (xs : List α) (i n : Nat) (f : α → α) :
    (updateAt xs i f)[n]? = if n = i then xs[n]?.map f else xs[n]? := by
  unfold updateAt
  cases h : xs[i]? with
  | none =>
    by_cases hn : n = i
    · subst hn; simp [h]
    · simp [hn]
  | some a =>
    by_cases hn : n = i
    · subst hn
      have hlt : n < xs.length := by
        rcases Nat.lt_or_ge n xs.length with h1 | h1
        · exact h1
        · rw [List.getElem?_eq_none h1] at h; cases h
      simp [h, List.getElem?_set, hlt]
    · have hne : i ≠ n := fun e => hn e.symm
      simp [hn, List.getElem?_set, hne]

theorem updateAt_length {α : Type} (xs : List α) (i : Nat) (f : α → α) :
    (updateAt xs i f).length = xs.length := by
  unfold updateAt
  cases xs[i]? <;> simp

theorem forLoop_updateAt_getElem? {α : Type} (f : Nat → α → α) :
    ∀ (k b : Nat) (xs : List α) (n : Nat),
      (forLoop k b (fun i ys => updateAt ys i (f i)) xs)[n]? =
        if b ≤ n ∧ n < b + k then xs[n]?.map (f n) else xs[n]? := by
  intro k
  induction k with
  | zero =>
    intro b xs n
    have h : ¬ (b ≤ n ∧ n < b + 0) := by omega
    rw [if_neg h]; rfl
  | succ k ih =>
    intro b xs n
    simp only [forLoop]
    rw [ih, updateAt_getElem?]
    by_cases h1 : n = b
    · subst h1; simp
    · by_cases h2 : b ≤ n
      · have h3 : b + 1 ≤ n := by omega
        have h4 : (n < b + 1 + k) ↔ (n < b + (k + 1)) := by omega
        simp [h1, h2, h3, h4]
      · have h3 : ¬ (b + 1 ≤ n) := by omega
        simp [h1, h2, h3]

theorem forLoop_updateAt_length {α : Type} (f : Nat → α → α) :
    ∀ (k b : Nat) (xs : List α),
      (forLoop k b (fun i ys => updateAt ys i (f i)) xs).length = xs.length := by
  intro k
  induction k with
  | zero => intro b xs; simp [forLoop]
  | succ k ih => intro b xs; simp only [forLoop]; rw [ih, updateAt_length]

theorem forRange_updateAt_getElem? {α : Type} (f : Nat → α → α) (b e : Nat) (xs : List α)
    (n : Nat) :
    (forRange b e (fun i ys => updateAt ys i (f i)) xs)[n]? =
      if b ≤ n ∧ n < e then xs[n]?.map (f n) else xs[n]? := by
  unfold forRange
  rw [forLoop_updateAt_getElem?]
  by_cases h : b ≤ n ∧ n < e
  · have h2 : b ≤ n ∧ n < b + (e - b) := ⟨h.1, by omega⟩
    rw [if_pos h, if_pos h2]
  · have h2 : ¬ (b ≤ n ∧ n < b + (e - b)) := by
      intro h3; apply h; exact ⟨h3.1, by omega⟩
    rw [if_neg h, if_neg h2]

/-! ## Adaptivity mask builder -/
namespace GenAdaptivityMaskOp

theorem neighbourLoop_eq_true (op : GenAdaptivityMaskOp) (ijk : Coord) (idx : Int)
    (normal : Vec3) (offs : List Coord) :
    op.neighbourLoop ijk idx normal offs = true ↔
      ∃ offset ∈ offs, op.neighbourTest ijk idx normal offset = true := by
  induction offs with
  | nil => simp [neighbourLoop]
  | cons o rest ih =>
    simp only [neighbourLoop, List.mem_cons]
    by_cases h : op.neighbourTest ijk idx normal o = true
    · simp only [h, if_true, true_iff]
      exact ⟨o, Or.inl rfl, h⟩
    · simp only [h, if_false, ih, Bool.false_eq_true]
      constructor
      · rintro ⟨x, hx, ht⟩; exact ⟨x, Or.inr hx, ht⟩
      · rintro ⟨x, hx | hx, ht⟩
        · subst hx; exact absurd ht h
        · exact ⟨x, hx, ht⟩

theorem processLeaf_getElem? (op : GenAdaptivityMaskOp) (leaf : Leaf) (j : Nat) (ijk : Coord)
    (h : leaf[j]? = some (ijk, true)) :
    (op.processLeaf leaf)[j]? = some (ijk, op.edgeVoxel ijk) := by
  unfold processLeaf
  rw [List.getElem?_map, h]
  by_cases he : op.edgeVoxel ijk = true
  · simp [he]
  · have he2 : op.edgeVoxel ijk = false := by simpa using he
    simp [he2]

theorem processLeaf_idem (op : GenAdaptivityMaskOp) (leaf : Leaf) :
    op.processLeaf (op.processLeaf leaf) = op.processLeaf leaf := by
  unfold processLeaf
  rw [List.map_map]
  apply List.map_congr_left
  rintro ⟨c, st⟩ _
  cases st
  · simp
  · by_cases he : op.edgeVoxel c = true
    · simp [he]
    · simp [he]

theorem operator_getElem? (op : GenAdaptivityMaskOp) (leafs : List Leaf) (rbegin rend n : Nat) :
    (op.operator leafs rbegin rend)[n]? =
      if rbegin ≤ n ∧ n < rend then leafs[n]?.map op.processLeaf else leafs[n]? := by
  unfold operator
  exact forRange_updateAt_getElem? (fun _ => op.processLeaf) rbegin rend leafs n

theorem operator_length (op : GenAdaptivityMaskOp) (leafs : List Leaf) (rbegin rend : Nat) :
    (op.operator leafs rbegin rend).length = leafs.length := by
  unfold operator forRange
  exact forLoop_updateAt_length (fun _ => op.processLeaf) _ _ _


/-- C4: with the tolerance clamped by the constructor, a voxel that is on in a
mask leaf and has, among the 18 neighbour offsets, a neighbour that is active
in the index grid with an index different from the voxel's own and whose
owning-triangle face normal has a dot product with the voxel's own face normal
below the tolerance, is still on (at the same place of the same leaf) after
`operator()` has run over any range. -/
theorem edge_voxel_stays_on (lvl : LevelSet) (indexTree : IndexTree) (tol : Flt)
    (leafs : List Leaf) (rbegin rend n j : Nat) (leaf : Leaf) (ijk offset : Coord)
    (hleaf : leafs[n]? = some leaf) (hvox : leaf[j]? = some (ijk, true))
    (hoff : offset ∈ COORD_OFFSETS)
    (hact : indexTree.isValueOn (ijk.add offset) = true)
    (hidx : indexTree.getValue (ijk.add offset) ≠ indexTree.getValue ijk)
    (hdot : ((lvl.face_normal (lvl.vertTri (indexTree.getValue ijk))).dot
        (lvl.face_normal (lvl.vertTri (indexTree.getValue (ijk.add offset))))).lt
          (make lvl indexTree tol).mEdgeTolerance = true) :
    ∃ leaf2, ((make lvl indexTree tol).operator leafs rbegin rend)[n]? = some leaf2 ∧
      leaf2[j]? = some (ijk, true) := by
  have hedge : (make lvl indexTree tol).edgeVoxel ijk = true := by
    unfold edgeVoxel
    simp only []
    rw [neighbourLoop_eq_true]
    refine ⟨offset, hoff, ?_⟩
    unfold neighbourTest
    have hidx2 : ((make lvl indexTree tol).mIndexTree.getValue (ijk.add offset) !=
        (make lvl indexTree tol).mIndexTree.getValue ijk) = true := by
      simpa [make] using hidx
    have hact2 : (make lvl indexTree tol).mIndexTree.isValueOn (ijk.add offset) = true := hact
    simp only [hact2, hidx2, Bool.and_self, if_true]
    exact hdot
  rw [operator_getElem?, hleaf]
  by_cases hr : rbegin ≤ n ∧ n < rend
  · rw [if_pos hr]
    refine ⟨_, rfl, ?_⟩
    rw [processLeaf_getElem? _ _ _ _ hvox, hedge]
  · rw [if_neg hr]
    exact ⟨leaf, rfl, hvox⟩

/-- Witness for C4: two voxels owned by perpendicular triangles, tolerance 1/2. -/
theorem edge_voxel_stays_on_witness :
    ∃ leaf2, ((make exampleEdgeLvl exampleEdgeTree (Flt.num (1/2))).operator
        exampleEdgeLeafs 0 1)[0]? = some leaf2 ∧ leaf2[0]? = some (⟨0, 0, 0⟩, true) :=
  edge_voxel_stays_on exampleEdgeLvl exampleEdgeTree (Flt.num (1/2)) exampleEdgeLeafs 0 1 0 0
    [(⟨0, 0, 0⟩, true), (⟨1, 0, 0⟩, true)] ⟨0, 0, 0⟩ ⟨1, 0, 0⟩
    (by decide!) (by decide!) (by decide!) (by decide!) (by decide!) (by decide!)

/-- C5: with the tolerance clamped by the constructor, an on voxel of a leaf
inside the processed range for which no offset of the 18-neighbourhood leads to
a voxel that is active in the index grid with a different index and has a
normal dot product below the tolerance, is off after `operator()` has run.
This covers a single differing neighbour whose dot product is not below the
tolerance, a voxel with no other active voxel around it, and a flat region. -/
theorem non_edge_voxel_turned_off (lvl : LevelSet) (indexTree : IndexTree) (tol : Flt)
    (leafs : List Leaf) (rbegin rend n j : Nat) (leaf : Leaf) (ijk : Coord)
    (hrange : rbegin ≤ n ∧ n < rend)
    (hleaf : leafs[n]? = some leaf) (hvox : leaf[j]? = some (ijk, true))
    (hnone : ∀ offset ∈ COORD_OFFSETS,
      ¬ (indexTree.isValueOn (ijk.add offset) = true ∧
        indexTree.getValue (ijk.add offset) ≠ indexTree.getValue ijk ∧
        ((lvl.face_normal (lvl.vertTri (indexTree.getValue ijk))).dot
          (lvl.face_normal (lvl.vertTri (indexTree.getValue (ijk.add offset))))).lt
            (make lvl indexTree tol).mEdgeTolerance = true)) :
    ∃ leaf2, ((make lvl indexTree tol).operator leafs rbegin rend)[n]? = some leaf2 ∧
      leaf2[j]? = some (ijk, false) := by
  have hedge : (make lvl indexTree tol).edgeVoxel ijk = false := by
    rw [← Bool.not_eq_true]
    unfold edgeVoxel
    simp only []
    rw [neighbourLoop_eq_true]
    rintro ⟨offset, hoff, ht⟩
    apply hnone offset hoff
    unfold neighbourTest at ht
    simp only [] at ht
    split_ifs at ht with hc
    simp only [Bool.and_eq_true, bne_iff_ne, ne_eq] at hc
    exact ⟨hc.1, hc.2, ht⟩
  rw [operator_getElem?, hleaf, if_pos hrange]
  refine ⟨_, rfl, ?_⟩
  rw [processLeaf_getElem? _ _ _ _ hvox, hedge]

/-- Witness for C5: a flat 2x2 patch whose voxels all own a triangle with
normal `(0,0,1)`, tolerance 0.01: the voxel `(0,0,0)` is turned off, and the
whole run leaves every voxel off. -/
theorem non_edge_voxel_turned_off_witness :
    (∃ leaf2, ((make exampleFlatLvl exampleFlatTree (Flt.num (1/100))).operator
        exampleFlatLeafs 0 1)[0]? = some leaf2 ∧ leaf2[0]? = some (⟨0, 0, 0⟩, false)) ∧
    (make exampleFlatLvl exampleFlatTree (Flt.num (1/100))).run exampleFlatLeafs =
      [[(⟨0, 0, 0⟩, false), (⟨1, 0, 0⟩, false), (⟨0, 1, 0⟩, false), (⟨1, 1, 0⟩, false)]] :=
  ⟨non_edge_voxel_turned_off exampleFlatLvl exampleFlatTree (Flt.num (1/100)) exampleFlatLeafs
    0 1 0 0 [(⟨0, 0, 0⟩, true), (⟨1, 0, 0⟩, true), (⟨0, 1, 0⟩, true), (⟨1, 1, 0⟩, true)]
    ⟨0, 0, 0⟩ (by decide!) (by decide!) (by decide!) (by decide!), by decide!⟩

/-- C8: the mask builder is idempotent: applying `operator()` over a range to
the mask it has produced over that range changes nothing, and so does a second
`run` after a first one. -/
theorem operator_idempotent (op : GenAdaptivityMaskOp) (leafs : List Leaf)
    (rbegin rend : Nat) :
    op.operator (op.operator leafs rbegin rend) rbegin rend = op.operator leafs rbegin rend ∧
      op.run (op.run leafs) = op.run leafs := by
  have key : ∀ b e, op.operator (op.operator leafs b e) b e = op.operator leafs b e := by
    intro b e
    apply List.ext_getElem?
    intro n
    rw [operator_getElem?, operator_getElem?]
    by_cases hr : b ≤ n ∧ n < e
    · simp only [if_pos hr]
      cases leafs[n]? with
      | none => rfl
      | some leaf => simp [processLeaf_idem]
    · simp only [if_neg hr]
  refine ⟨key _ _, ?_⟩
  unfold run
  rw [operator_length]
  exact key _ _

end GenAdaptivityMaskOp

/-! ## Primitive copy pass of `doVolumeToMesh` -/

theorem writeAt_append_replicate {α : Type} (A : List α) (m : Nat) (d v : α) :
    writeAt (A ++ List.replicate (m + 1) d) A.length v =
      some ((A ++ [v]) ++ List.replicate m d) := by
  unfold writeAt
  have h : A.length < (A ++ List.replicate (m + 1) d).length := by simp
  rw [if_pos h]
  simp [List.set_append, List.replicate_succ]

theorem copyQuad_loop (pool : PolygonPool) (d : Vec4I) :
    ∀ (k i : Nat) (A : List Vec4I) (m q : Nat) (T : List Vec3I) (tIdx : Nat),
      q = A.length → k ≤ m → i + k ≤ pool.quads.length →
      forLoopM k i (copyQuad pool) ⟨A ++ List.replicate m d, T, q, tIdx⟩ =
        some ⟨A ++ (pool.quads.drop i).take k ++ List.replicate (m - k) d, T, q + k, tIdx⟩ := by
  intro k
  induction k with
  | zero => intro i A m q T tIdx _ _ _; simp [forLoopM]
  | succ k ih =>
    intro i A m q T tIdx hq hm hi
    obtain ⟨m, rfl⟩ : ∃ m2, m = m2 + 1 := ⟨m - 1, by omega⟩
    have hlt : i < pool.quads.length := by omega
    subst hq
    simp only [forLoopM, copyQuad]
    rw [writeAt_append_replicate]
    simp only [Option.map_some', Option.some_bind]
    rw [ih (i + 1) (A ++ [pool.quads.getD i ⟨0, 0, 0, 0⟩]) m (A.length + 1) T tIdx (by simp)
      (by omega) (by omega)]
    have hd : pool.quads.drop i = pool.quads[i] :: pool.quads.drop (i + 1) :=
      List.drop_eq_getElem_cons hlt
    have hg : pool.quads.getD i ⟨0, 0, 0, 0⟩ = pool.quads[i] := by
      rw [List.getD_eq_getElem?_getD, List.getElem?_eq_getElem hlt]; rfl
    rw [hd, hg, List.take_succ_cons]
    have e1 : m + 1 - (k + 1) = m - k := by omega
    have e2 : A.length + 1 + k = A.length + (k + 1) := by omega
    simp only [e1, e2, List.append_assoc, List.singleton_append, List.cons_append, List.nil_append]

theorem copyTriangle_loop (pool : PolygonPool) (d : Vec3I) :
    ∀ (k i : Nat) (A : List Vec3I) (m t : Nat) (Q : List Vec4I) (qIdx : Nat),
      t = A.length → k ≤ m → i + k ≤ pool.triangles.length →
      forLoopM k i (copyTriangle pool) ⟨Q, A ++ List.replicate m d, qIdx, t⟩ =
        some ⟨Q, A ++ (pool.triangles.drop i).take k ++ List.replicate (m - k) d, qIdx, t + k⟩ := by
  intro k
  induction k with
  | zero => intro i A m t Q qIdx _ _ _; simp [forLoopM]
  | succ k ih =>
    intro i A m t Q qIdx ht hm hi
    obtain ⟨m, rfl⟩ : ∃ m2, m = m2 + 1 := ⟨m - 1, by omega⟩
    have hlt : i < pool.triangles.length := by omega
    subst ht
    simp only [forLoopM, copyTriangle]
    rw [writeAt_append_replicate]
    simp only [Option.map_some', Option.some_bind]
    rw [ih (i + 1) (A ++ [pool.triangles.getD i ⟨0, 0, 0⟩]) m (A.length + 1) Q qIdx (by simp)
      (by omega) (by omega)]
    have hd : pool.triangles.drop i = pool.triangles[i] :: pool.triangles.drop (i + 1) :=
      List.drop_eq_getElem_cons hlt
    have hg : pool.triangles.getD i ⟨0, 0, 0⟩ = pool.triangles[i] := by
      rw [List.getD_eq_getElem?_getD, List.getElem?_eq_getElem hlt]; rfl
    rw [hd, hg, List.take_succ_cons]
    have e1 : m + 1 - (k + 1) = m - k := by omega
    have e2 : A.length + 1 + k = A.length + (k + 1) := by omega
    simp only [e1, e2, List.append_assoc, List.singleton_append, List.cons_append, List.nil_append]

theorem copyPool_spec (pools : List PolygonPool) (n : Nat) (hn : n < pools.length)
    (Q : List Vec4I) (T : List Vec3I) (mq mt : Nat)
    (hq : pools[n].quads.length ≤ mq) (ht : pools[n].triangles.length ≤ mt) :
    copyPool pools n
        ⟨Q ++ List.replicate mq ⟨0, 0, 0, 0⟩, T ++ List.replicate mt ⟨0, 0, 0⟩, Q.length, T.length⟩ =
      some ⟨Q ++ pools[n].quads ++ List.replicate (mq - pools[n].quads.length) ⟨0, 0, 0, 0⟩,
        T ++ pools[n].triangles ++ List.replicate (mt - pools[n].triangles.length) ⟨0, 0, 0⟩,
        Q.length + pools[n].quads.length, T.length + pools[n].triangles.length⟩ := by
  have hg : pools.getD n ⟨[], []⟩ = pools[n] := by
    rw [List.getD_eq_getElem?_getD, List.getElem?_eq_getElem hn]; rfl
  unfold copyPool forRangeM
  simp only [hg, Nat.sub_zero]
  rw [copyQuad_loop pools[n] ⟨0, 0, 0, 0⟩ _ 0 Q mq Q.length _ _ rfl hq (by omega)]
  simp only [Option.some_bind, List.drop_zero, List.take_length]
  rw [copyTriangle_loop pools[n] ⟨0, 0, 0⟩ _ 0 T mt T.length _ _ rfl ht (by omega)]
  simp only [List.drop_zero, List.take_length]

theorem copyPools_loop (pools : List PolygonPool) :
    ∀ (k n : Nat) (Q : List Vec4I) (T : List Vec3I) (mq mt q t : Nat),
      q = Q.length → t = T.length → n + k ≤ pools.length →
      (((pools.drop n).take k).flatMap PolygonPool.quads).length ≤ mq →
      (((pools.drop n).take k).flatMap PolygonPool.triangles).length ≤ mt →
      forLoopM k n (copyPool pools)
          ⟨Q ++ List.replicate mq ⟨0, 0, 0, 0⟩, T ++ List.replicate mt ⟨0, 0, 0⟩, q, t⟩ =
        some ⟨Q ++ ((pools.drop n).take k).flatMap PolygonPool.quads ++
            List.replicate (mq - (((pools.drop n).take k).flatMap PolygonPool.quads).length)
              ⟨0, 0, 0, 0⟩,
          T ++ ((pools.drop n).take k).flatMap PolygonPool.triangles ++
            List.replicate (mt - (((pools.drop n).take k).flatMap PolygonPool.triangles).length)
              ⟨0, 0, 0⟩,
          q + (((pools.drop n).take k).flatMap PolygonPool.quads).length,
          t + (((pools.drop n).take k).flatMap PolygonPool.triangles).length⟩ := by
  intro k
  induction k with
  | zero => intro n Q T mq mt q t _ _ _ _ _; simp [forLoopM]
  | succ k ih =>
    intro n Q T mq mt q t hq ht hn hmq hmt
    have hlt : n < pools.length := by omega
    have hd : pools.drop n = pools[n] :: pools.drop (n + 1) := List.drop_eq_getElem_cons hlt
    rw [hd, List.take_succ_cons] at hmq hmt ⊢
    simp only [List.flatMap_cons, List.length_append] at hmq hmt ⊢
    subst hq ht
    simp only [forLoopM]
    rw [copyPool_spec pools n hlt Q T mq mt (by omega) (by omega)]
    simp only [Option.some_bind]
    rw [ih (n + 1) (Q ++ pools[n].quads) (T ++ pools[n].triangles) _ _ _ _ (by simp) (by simp)
      (by omega) (by omega) (by omega)]
    simp only [List.append_assoc, Nat.add_assoc, Nat.sub_sub]

theorem countPrimitives_loop (pools : List PolygonPool) :
    ∀ (k n a b : Nat), n + k ≤ pools.length →
      forLoop k n
          (fun n acc =>
            ((acc : Nat × Nat).1 + (pools.getD n ⟨[], []⟩).quads.length,
              acc.2 + (pools.getD n ⟨[], []⟩).triangles.length))
          (a, b) =
        (a + (((pools.drop n).take k).flatMap PolygonPool.quads).length,
          b + (((pools.drop n).take k).flatMap PolygonPool.triangles).length) := by
  intro k
  induction k with
  | zero => intro n a b _; simp [forLoop]
  | succ k ih =>
    intro n a b hn
    have hlt : n < pools.length := by omega
    have hd : pools.drop n = pools[n] :: pools.drop (n + 1) := List.drop_eq_getElem_cons hlt
    have hg : pools.getD n ⟨[], []⟩ = pools[n] := by
      rw [List.getD_eq_getElem?_getD, List.getElem?_eq_getElem hlt]; rfl
    simp only [forLoop]
    rw [ih (n + 1) _ _ (by omega), hd, List.take_succ_cons, hg]
    simp only [List.flatMap_cons, List.length_append, Nat.add_assoc]

theorem countPrimitives_eq (pools : List PolygonPool) :
    countPrimitives pools =
      ((pools.flatMap PolygonPool.quads).length, (pools.flatMap PolygonPool.triangles).length) := by
  unfold countPrimitives forRange
  simp only []
  rw [countPrimitives_loop pools _ 0 0 0 (by omega)]
  simp

/-- C7: for every polygon pool list left by the mesher, no write of the copy
pass of `doVolumeToMesh` falls outside the preallocated arrays (the result is
`some`), the quads array is the concatenation in pool order of the quads of
each pool, the triangles array the concatenation in pool order of the triangles
of each pool, and their lengths are the sums of the per-pool counts. -/
theorem doVolumeToMesh_concat (mesher : VolumeToMesh) :
    doVolumeToMesh mesher =
        some (mesher.pointList,
          mesher.polygonPoolList.flatMap PolygonPool.triangles,
          mesher.polygonPoolList.flatMap PolygonPool.quads) ∧
      (mesher.polygonPoolList.flatMap PolygonPool.quads).length =
        (mesher.polygonPoolList.map fun p => p.quads.length).sum ∧
      (mesher.polygonPoolList.flatMap PolygonPool.triangles).length =
        (mesher.polygonPoolList.map fun p => p.triangles.length).sum := by
  refine ⟨?_, ?_, ?_⟩
  · unfold doVolumeToMesh forRangeM
    simp only [countPrimitives_eq, Nat.sub_zero]
    have h := copyPools_loop mesher.polygonPoolList mesher.polygonPoolList.length 0 [] []
      (mesher.polygonPoolList.flatMap PolygonPool.quads).length
      (mesher.polygonPoolList.flatMap PolygonPool.triangles).length 0 0 rfl rfl (by omega)
      (by simp) (by simp)
    simp only [List.nil_append, List.drop_zero, List.take_length, Nat.sub_self,
      List.replicate_zero, List.append_nil] at h
    rw [h]
    rfl
  · rw [List.length_flatMap]; rfl
  · rw [List.length_flatMap]; rfl

/-! ## `AABBox::intersect` on a ray that misses the box -/

/-- C3 (failing input): on the box `[-1,1]^3`, the ray with origin `(-1,-5,5)`
and direction `(0,1,0)` stays in the plane `z = 5` and so never meets the box
(no point `orig + s*dir` lies in it, for any `s`), yet `intersect` returns
`true` with `t = NaN`: the slab parameter `(-1 - (-1)) * (1/0) = 0 * inf` is
NaN and every comparison against it is false. -/
theorem AABBox.intersect_hit_on_missing_ray :
    (AABBox.mk (Vec3.ofRat (-1) (-1) (-1)) (Vec3.ofRat 1 1 1)).intersect
        (Ray.make (Vec3.ofRat (-1) (-5) 5) (Vec3.ofRat 0 1 0)) (Flt.num 0) = (true, Flt.nan) ∧
      ∀ s : Flt, (AABBox.mk (Vec3.ofRat (-1) (-1) (-1)) (Vec3.ofRat 1 1 1)).contains
        ((Vec3.ofRat (-1) (-5) 5).add ((Vec3.ofRat 0 1 0).scale s)) = false := by
  refine ⟨by decide!, ?_⟩
  intro s
  have hz : ((Flt.num 5).add ((Flt.num 0).mul s)).le (Flt.num 1) = false := by
    cases s <;> simp [Flt.mul, Flt.add, Flt.toRat?, Flt.zero, Flt.signBit, Flt.isNaN, Flt.le,
      Flt.inf] <;> (try split_ifs) <;> simp [Flt.toRat?, Flt.le]
  simp only [AABBox.contains, Vec3.add, Vec3.scale, Vec3.ofRat, hz, Bool.and_false]

/-- The witness named in C3: origin `(10,10,10)`, direction `(1,1,1)`, box
`[-1,1]^3`: `intersect` returns `false`. -/
theorem AABBox.intersect_false_on_far_ray :
    ((AABBox.mk (Vec3.ofRat (-1) (-1) (-1)) (Vec3.ofRat 1 1 1)).intersect
        (Ray.make (Vec3.ofRat 10 10 10) (Vec3.ofRat 1 1 1)) (Flt.num 0)).1 = false := by
  decide!

/-! ## `volumeToMesh` on a non-scalar grid -/

/-- C9 (failing input): for a grid whose value type is not scalar, the call
that `volumeToMesh` makes with its 9 arguments has no viable overload (the
scalar overload is disabled, the throwing overload takes 8 parameters), so the
instantiation is ill-formed and the `TypeError` is never thrown; a call with 8
arguments would reach the throwing overload. -/
theorem volumeToMesh_nonScalar (mesher : VolumeToMesh) :
    volumeToMesh false mesher = CallOutcome.illFormed ∧
      callDoVolumeToMesh false 8 mesher =
        CallOutcome.thrown "TypeError"
          "volume to mesh conversion is supported only for scalar grids" := by
  constructor <;> rfl

/-! ## `PrimCpyOp` -/

/-- C10: for a range that lies within the triangle list and a record list
preallocated with one record per triangle, after `PrimCpyOp::operator()(r)`
every record `i` of the range is `(tri[i][0], tri[i][1], tri[i][2],
INVALID_IDX)`, every record outside the range is unchanged, and the number of
records is unchanged. -/
theorem PrimCpyOp.operator_spec (triangles : List Vec3I) (primList : List Vec4I)
    (rbegin rend : Nat) (hr : rend ≤ triangles.length)
    (hlen : primList.length = triangles.length) :
    (∀ i tri, rbegin ≤ i → i < rend → triangles[i]? = some tri →
        (PrimCpyOp.operator triangles primList rbegin rend)[i]? =
          some ⟨tri.v0, tri.v1, tri.v2, INVALID_IDX⟩) ∧
      (∀ i, ¬ (rbegin ≤ i ∧ i < rend) →
        (PrimCpyOp.operator triangles primList rbegin rend)[i]? = primList[i]?) ∧
      (PrimCpyOp.operator triangles primList rbegin rend).length = primList.length := by
  refine ⟨?_, ?_, ?_⟩
  · intro i tri h1 h2 ht
    unfold PrimCpyOp.operator
    rw [forRange_updateAt_getElem?
      (fun i _ => PrimCpyOp.prim (triangles.getD i ⟨0, 0, 0⟩)) rbegin rend primList i,
      if_pos ⟨h1, h2⟩]
    have hi : i < primList.length := by omega
    rw [List.getElem?_eq_getElem hi, List.getD_eq_getElem?_getD, ht]
    rfl
  · intro i hi
    unfold PrimCpyOp.operator
    rw [forRange_updateAt_getElem?
      (fun i _ => PrimCpyOp.prim (triangles.getD i ⟨0, 0, 0⟩)) rbegin rend primList i,
      if_neg hi]
  · unfold PrimCpyOp.operator forRange
    exact forLoop_updateAt_length
      (fun i _ => PrimCpyOp.prim (triangles.getD i ⟨0, 0, 0⟩)) _ _ _

/-- Witness for C10: three triangles, the range `[1, 3)`. -/
theorem PrimCpyOp.operator_spec_witness :
    ((∀ i tri, 1 ≤ i → i < 3 → exampleTriangles[i]? = some tri →
        (PrimCpyOp.operator exampleTriangles examplePrimList 1 3)[i]? =
          some ⟨tri.v0, tri.v1, tri.v2, INVALID_IDX⟩) ∧
      (∀ i, ¬ (1 ≤ i ∧ i < 3) →
        (PrimCpyOp.operator exampleTriangles examplePrimList 1 3)[i]? = examplePrimList[i]?) ∧
      (PrimCpyOp.operator exampleTriangles examplePrimList 1 3).length =
        examplePrimList.length) ∧
      PrimCpyOp.operator exampleTriangles examplePrimList 1 3 =
        [⟨9, 9, 9, 9⟩, ⟨2, 1, 3, INVALID_IDX⟩, ⟨4, 5, 6, INVALID_IDX⟩] :=
  ⟨PrimCpyOp.operator_spec exampleTriangles examplePrimList 1 3 (by decide) (by decide),
    by decide⟩

/-! ## `SharpenFeaturesOp` -/

theorem SharpenFeaturesOp.result_getElem? (op : SharpenFeaturesOp) (out_points : List Vec3)
    (rbegin rend i : Nat) :
    (op.operator out_points rbegin rend)[i]? =
      if rbegin ≤ i ∧ i < rend then out_points[i]?.map op.refine else out_points[i]? := by
  unfold SharpenFeaturesOp.operator
  exact forRange_updateAt_getElem? (fun _ => op.refine) rbegin rend out_points i

theorem SharpenFeaturesOp.refine_of_few (op : SharpenFeaturesOp) (p : Vec3)
    (h : (op.getEdgeData (op.voxelOf p)).1.length < 2) : op.refine p = p := by
  unfold SharpenFeaturesOp.refine
  simp only []
  have h2 : ¬ ((op.getEdgeData (op.voxelOf p)).1.length > 1) := by omega
  rw [if_neg h2]
  split_ifs <;> rfl

/-- C6: for every point index of the processed range whose voxel yields fewer
than 2 edge intersection points, the position at that index in the buffer
published by `operator()` is the input position. -/
theorem SharpenFeaturesOp.unchanged_of_few_intersections (op : SharpenFeaturesOp)
    (out_points : List Vec3) (rbegin rend i : Nat) (p : Vec3)
    (hr : rbegin ≤ i ∧ i < rend) (hp : out_points[i]? = some p)
    (hfew : (op.getEdgeData (op.voxelOf p)).1.length < 2) :
    (op.operator out_points rbegin rend)[i]? = some p := by
  rw [SharpenFeaturesOp.result_getElem?, if_pos hr, hp, Option.map_some',
    SharpenFeaturesOp.refine_of_few op p hfew]

/-- Witness for C6: a provider that returns one intersection point per voxel;
the point of index 1 is left where it was. -/
theorem SharpenFeaturesOp.unchanged_of_few_intersections_witness :
    (exampleSparseOp.operator [Vec3.ofRat 0 0 0, Vec3.ofRat (1 / 2) (3 / 2) 2] 0 2)[1]? =
      some (Vec3.ofRat (1 / 2) (3 / 2) 2) :=
  SharpenFeaturesOp.unchanged_of_few_intersections exampleSparseOp
    [Vec3.ofRat 0 0 0, Vec3.ofRat (1 / 2) (3 / 2) 2] 0 2 1 (Vec3.ofRat (1 / 2) (3 / 2) 2)
    (by decide) (by rfl) (by decide)

namespace Flt

/-! ## Evaluation of the IEEE operations on finite values -/

theorem add_num (a b : ℚ) : add (num a) (num b) = num (a + b) := by
  simp only [add, toRat?, signBit, zero]
  split_ifs with h1 h2
  · exfalso
    simp only [Bool.and_eq_true, decide_eq_true_eq] at h2
    linarith [h2.1, h2.2]
  · rw [h1]
  · rfl

theorem sub_num (a b : ℚ) : sub (num a) (num b) = num (a - b) := by
  by_cases h : b = 0
  · subst h
    simp only [sub, neg, if_true, add, toRat?, signBit, zero, add_zero, sub_zero]
    split_ifs with h1 h2
    · exfalso
      simp only [Bool.and_true, decide_eq_true_eq] at h2
      linarith
    · rw [h1]
    · rfl
  · simp only [sub, neg, if_neg h]
    rw [add_num, sub_eq_add_neg]

theorem mul_num_pos (a b : ℚ) (hb : 0 < b) : mul (num a) (num b) = num (a * b) := by
  simp only [mul, toRat?, signBit, zero]
  split_ifs with h1 h2
  · exfalso
    rcases mul_eq_zero.1 h1 with h | h
    · subst h; simp [not_lt.2 (le_of_lt hb)] at h2
    · linarith
  · rw [h1]
  · rfl

theorem div_one_num (d : ℚ) (hd : d ≠ 0) : div (num 1) (num d) = num (1 / d) := by
  simp [div, toRat?, hd]

theorem div_one_zero : div (num 1) (num 0) = pinf := by
  simp [div, toRat?, signBit, inf]

theorem le_trans {a b c : Flt} (h1 : le a b = true) (h2 : le b c = true) : le a c = true := by
  cases a <;> cases b <;> simp [le] at h1 <;> cases c <;> simp [le] at h2 ⊢ <;> linarith

theorem le_refl_of_lt_num {a : Flt} {s : ℚ} (h : lt a (num s) = true) : le a a = true := by
  cases a <;> simp [lt] at h <;> simp [le]

end Flt

namespace Flt

end Flt

theorem SharpenFeaturesOp.gather_loop (op : SharpenFeaturesOp) (points : List Vec3) :
    ∀ (k n : Nat) (acc : Vec3) (ns : List Vec3), n + k ≤ points.length →
      (forLoop k n
        (fun n (acc : Vec3 × List Vec3) =>
          (acc.1.add (points.getD n (Vec3.ofRat 0 0 0)), acc.2 ++ [op.face_normal n]))
        (acc, ns)).1 = ((points.drop n).take k).foldl Vec3.add acc := by
  intro k
  induction k with
  | zero => intro n acc ns _; simp [forLoop]
  | succ k ih =>
    intro n acc ns hn
    have hlt : n < points.length := by omega
    have hd : points.drop n = points[n] :: points.drop (n + 1) := List.drop_eq_getElem_cons hlt
    have hg : points.getD n (Vec3.ofRat 0 0 0) = points[n] := by
      rw [List.getD_eq_getElem?_getD, List.getElem?_eq_getElem hlt]; rfl
    simp only [forLoop]
    rw [ih (n + 1) _ _ (by omega), hd, List.take_succ_cons, hg, List.foldl_cons]

theorem SharpenFeaturesOp.gather_fst (op : SharpenFeaturesOp) (points : List Vec3) :
    (op.gather points).1 = points.foldl Vec3.add (Vec3.ofRat 0 0 0) := by
  unfold SharpenFeaturesOp.gather forRange
  rw [SharpenFeaturesOp.gather_loop op points _ 0 _ _ (by omega)]
  simp

theorem BBox.onBoundary_ofRat (lox loy loz hix hiy hiz px py pz : ℚ)
    (hx : lox ≤ px ∧ px ≤ hix) (hy : loy ≤ py ∧ py ≤ hiy) (hz : loz ≤ pz ∧ pz ≤ hiz)
    (hb : (px = lox ∨ px = hix) ∨ (py = loy ∨ py = hiy) ∨ (pz = loz ∨ pz = hiz)) :
    (BBox.mk (Vec3.ofRat lox loy loz) (Vec3.ofRat hix hiy hiz)).onBoundary
      (Vec3.ofRat px py pz) = true := by
  simp only [BBox.onBoundary, BBox.isInside, Vec3.ofRat, Flt.feq, Flt.le, Bool.and_eq_true,
    Bool.or_eq_true, decide_eq_true_eq]
  refine ⟨⟨⟨⟨⟨⟨hx.1, hx.2⟩, hy.1⟩, hy.2⟩, hz.1⟩, hz.2⟩, ?_⟩
  rcases hb with (h | h) | (h | h) | (h | h)
  · left; left; left; left; left; exact ⟨le_of_eq h, le_of_eq h.symm⟩
  · left; left; left; left; right; exact ⟨le_of_eq h, le_of_eq h.symm⟩
  · left; left; left; right; exact ⟨le_of_eq h, le_of_eq h.symm⟩
  · left; left; right; exact ⟨le_of_eq h, le_of_eq h.symm⟩
  · left; right; exact ⟨le_of_eq h, le_of_eq h.symm⟩
  · right; exact ⟨le_of_eq h, le_of_eq h.symm⟩

/-- The body of the loop when the point is not masked out, has at least two
intersection points and its solved point is not inside the cell. -/
theorem SharpenFeaturesOp.refine_of_outside (op : SharpenFeaturesOp) (p : Vec3)
    (hmask : op.maskedOut (op.voxelOf p) = false)
    (hcount : 2 ≤ (op.getEdgeData (op.voxelOf p)).1.length)
    (hout : (SharpenFeaturesOp.cellOf (op.voxelOf p)).isInside
      (op.findFeaturePoint (op.getEdgeData (op.voxelOf p)).1
        (op.gather (op.getEdgeData (op.voxelOf p)).1).2) = false) :
    op.refine p = op.indexToWorld
      (op.clamp (SharpenFeaturesOp.cellOf (op.voxelOf p))
        (op.findFeaturePoint (op.getEdgeData (op.voxelOf p)).1
          (op.gather (op.getEdgeData (op.voxelOf p)).1).2)
        (op.gather (op.getEdgeData (op.voxelOf p)).1).1
        (op.getEdgeData (op.voxelOf p)).1.length) := by
  unfold SharpenFeaturesOp.refine
  have h2 : (op.getEdgeData (op.voxelOf p)).1.length > 1 := by omega
  simp only [hmask, hout, h2, Bool.false_eq_true, if_false, if_true, Bool.not_false]

/-- The clamp step in terms of the centroid and the normalised direction. -/
theorem SharpenFeaturesOp.clamp_eq (op : SharpenFeaturesOp) (cell : BBox) (pos : Vec3)
    (points : List Vec3) :
    op.clamp cell pos (op.gather points).1 points.length =
      if ((AABBox.mk cell.min cell.max).intersect
          (Ray.make pos (op.normalize ((centroid points).sub pos))) Flt.nan).1 = true then
        pos.add ((op.normalize ((centroid points).sub pos)).scale
          ((AABBox.mk cell.min cell.max).intersect
            (Ray.make pos (op.normalize ((centroid points).sub pos))) Flt.nan).2)
      else pos := by
  unfold SharpenFeaturesOp.clamp centroid
  rw [SharpenFeaturesOp.gather_fst]

/-- The body of the loop when the point is not masked out, has at least two
intersection points and its solved point is inside the cell. -/
theorem SharpenFeaturesOp.refine_of_inside (op : SharpenFeaturesOp) (p : Vec3)
    (hmask : op.maskedOut (op.voxelOf p) = false)
    (hcount : 2 ≤ (op.getEdgeData (op.voxelOf p)).1.length)
    (hin : (SharpenFeaturesOp.cellOf (op.voxelOf p)).isInside
      (op.findFeaturePoint (op.getEdgeData (op.voxelOf p)).1
        (op.gather (op.getEdgeData (op.voxelOf p)).1).2) = true) :
    op.refine p = op.indexToWorld
      (op.findFeaturePoint (op.getEdgeData (op.voxelOf p)).1
        (op.gather (op.getEdgeData (op.voxelOf p)).1).2) := by
  unfold SharpenFeaturesOp.refine
  have h2 : (op.getEdgeData (op.voxelOf p)).1.length > 1 := by omega
  simp only [hmask, hin, h2, Bool.false_eq_true, if_false, if_true, Bool.not_true]

/-- C11: for a point of the processed range that is not masked out, whose
voxel has at least 2 edge intersection points and whose solved feature point
lies inside the voxel's unit cell expanded by 0.3, the position written at that
index is the index-to-world image of the unclamped result of
`findFeaturePoint(points, normals)`. -/
theorem SharpenFeaturesOp.unclamped_of_inside (op : SharpenFeaturesOp)
    (out_points : List Vec3) (rbegin rend i : Nat) (p : Vec3)
    (hr : rbegin ≤ i ∧ i < rend) (hp : out_points[i]? = some p)
    (hmask : op.maskedOut (op.voxelOf p) = false)
    (hcount : 2 ≤ (op.getEdgeData (op.voxelOf p)).1.length)
    (hin : (SharpenFeaturesOp.cellOf (op.voxelOf p)).isInside
      (op.findFeaturePoint (op.getEdgeData (op.voxelOf p)).1
        (op.gather (op.getEdgeData (op.voxelOf p)).1).2) = true) :
    (op.operator out_points rbegin rend)[i]? =
      some (op.indexToWorld
        (op.findFeaturePoint (op.getEdgeData (op.voxelOf p)).1
          (op.gather (op.getEdgeData (op.voxelOf p)).1).2)) := by
  rw [SharpenFeaturesOp.result_getElem?, if_pos hr, hp, Option.map_some',
    SharpenFeaturesOp.refine_of_inside op p hmask hcount hin]

/-- Witness for C11: the point `(1/2, 1/2, 1/2)` maps to voxel `(0,0,0)`, which
is on in the mask; the solved point `(1/2, 1/2, 6/5)` is inside the expanded
cell and is written back as `(1, 1, 12/5)`. -/
theorem SharpenFeaturesOp.unclamped_of_inside_witness :
    (exampleInsideOp.operator [Vec3.ofRat (1 / 2) (1 / 2) (1 / 2)] 0 1)[0]? =
        some (exampleInsideOp.indexToWorld
          (exampleInsideOp.findFeaturePoint
            (exampleInsideOp.getEdgeData
              (exampleInsideOp.voxelOf (Vec3.ofRat (1 / 2) (1 / 2) (1 / 2)))).1
            (exampleInsideOp.gather
              (exampleInsideOp.getEdgeData
                (exampleInsideOp.voxelOf (Vec3.ofRat (1 / 2) (1 / 2) (1 / 2)))).1).2)) ∧
      exampleInsideOp.operator [Vec3.ofRat (1 / 2) (1 / 2) (1 / 2)] 0 1 =
        [Vec3.ofRat 1 1 (12 / 5)] :=
  ⟨SharpenFeaturesOp.unclamped_of_inside exampleInsideOp [Vec3.ofRat (1 / 2) (1 / 2) (1 / 2)]
    0 1 0 (Vec3.ofRat (1 / 2) (1 / 2) (1 / 2)) (by decide) (by rfl) (by decide!) (by decide)
    (by decide!), by decide!⟩

theorem SharpenFeaturesOp.refine_of_masked (op : SharpenFeaturesOp) (p : Vec3)
    (h : op.maskedOut (op.voxelOf p) = true) : op.refine p = p := by
  unfold SharpenFeaturesOp.refine
  simp only [h, if_true]

/-- C12: for every range, the buffer published by `operator()` has the length
of the input buffer, agrees with it at every index outside the range, and
agrees with it at every index whose voxel is not on in the supplied mask. -/
theorem SharpenFeaturesOp.frame_of_operator (op : SharpenFeaturesOp) (out_points : List Vec3)
    (rbegin rend : Nat) :
    (op.operator out_points rbegin rend).length = out_points.length ∧
      (∀ i, ¬ (rbegin ≤ i ∧ i < rend) →
        (op.operator out_points rbegin rend)[i]? = out_points[i]?) ∧
      (∀ (i : Nat) (p : Vec3) (mask : Coord → Bool), out_points[i]? = some p →
        op.mMaskTree = some mask →
        mask (op.voxelOf p) = false →
        (op.operator out_points rbegin rend)[i]? = some p) := by
  refine ⟨?_, ?_, ?_⟩
  · unfold SharpenFeaturesOp.operator forRange
    exact forLoop_updateAt_length (fun _ => op.refine) _ _ _
  · intro i hi
    rw [SharpenFeaturesOp.result_getElem?, if_neg hi]
  · intro i p mask hp hm hoff
    have hmasked : op.maskedOut (op.voxelOf p) = true := by
      unfold SharpenFeaturesOp.maskedOut
      rw [hm]
      simp only [hoff, Bool.not_false]
    rw [SharpenFeaturesOp.result_getElem?, hp]
    split_ifs
    · rw [Option.map_some', SharpenFeaturesOp.refine_of_masked op p hmasked]
    · rfl

theorem SharpenFeaturesOp.gather_snd_loop (op : SharpenFeaturesOp) (points : List Vec3) :
    ∀ (k n : Nat) (acc : Vec3) (ns : List Vec3),
      (forLoop k n
        (fun n (acc : Vec3 × List Vec3) =>
          (acc.1.add (points.getD n (Vec3.ofRat 0 0 0)), acc.2 ++ [op.face_normal n]))
        (acc, ns)).2 = ns ++ (List.range k).map fun j => op.face_normal (n + j) := by
  intro k
  induction k with
  | zero => intro n acc ns; simp [forLoop]
  | succ k ih =>
    intro n acc ns
    simp only [forLoop]
    rw [ih, List.range_succ_eq_map]
    simp only [List.map_cons, List.map_map, List.append_assoc, List.singleton_append,
      Nat.add_zero]
    congr 2
    apply List.map_congr_left
    intro j _
    simp only [Function.comp_apply]
    congr 1
    omega

theorem SharpenFeaturesOp.gather_snd (op : SharpenFeaturesOp) (points : List Vec3) :
    (op.gather points).2 = (List.range points.length).map op.face_normal := by
  unfold SharpenFeaturesOp.gather forRange
  rw [SharpenFeaturesOp.gather_snd_loop]
  simp

theorem SharpenFeaturesOp.refine_withPrimitives (op : SharpenFeaturesOp)
    (prims : Coord → List Nat) (p : Vec3) : (op.withPrimitives prims).refine p = op.refine p := by
  rfl

/-- C19: the normal paired with the `n`-th intersection point of a voxel is
`face_normal(n)`, indexed by intersection order, and the buffer published by
`operator()` does not depend on the primitive identifiers returned by the
edge-intersection provider: a run in which they are replaced by any others
publishes the same buffer. -/
theorem SharpenFeaturesOp.primitive_ids_irrelevant (op : SharpenFeaturesOp)
    (prims : Coord → List Nat) (out_points : List Vec3) (rbegin rend : Nat) :
    (∀ points : List Vec3,
        (op.gather points).2 = (List.range points.length).map op.face_normal) ∧
      (op.withPrimitives prims).operator out_points rbegin rend =
        op.operator out_points rbegin rend := by
  refine ⟨fun points => SharpenFeaturesOp.gather_snd op points, ?_⟩
  unfold SharpenFeaturesOp.operator
  have h : (op.withPrimitives prims).refine = op.refine :=
    funext (SharpenFeaturesOp.refine_withPrimitives op prims)
  rw [h]

/-! ## The tolerance of `GenAdaptivityMaskOp` -/

theorem GenAdaptivityMaskOp.make_tolerance (lvl : LevelSet) (indexTree : IndexTree) (x : Flt) :
    (GenAdaptivityMaskOp.make lvl indexTree x).mEdgeTolerance =
      match x with
      | Flt.num q => if 0 < q then (if q < 1 then Flt.num q else Flt.num 1) else Flt.num 0
      | Flt.pinf => Flt.num 1
      | _ => Flt.num 0 := by
  cases x with
  | num q =>
    simp only [GenAdaptivityMaskOp.make, Flt.stdMax, Flt.stdMin, Flt.lt, decide_eq_true_eq]
    by_cases h0 : 0 < q
    · simp only [if_pos h0, Flt.lt, decide_eq_true_eq]
    · simp only [if_neg h0, Flt.lt, decide_eq_true_eq]
      norm_num
  | negZero => simp [GenAdaptivityMaskOp.make, Flt.stdMax, Flt.stdMin, Flt.lt]
  | pinf => simp [GenAdaptivityMaskOp.make, Flt.stdMax, Flt.stdMin, Flt.lt]
  | ninf => simp [GenAdaptivityMaskOp.make, Flt.stdMax, Flt.stdMin, Flt.lt]
  | nan => simp [GenAdaptivityMaskOp.make, Flt.stdMax, Flt.stdMin, Flt.lt]

/-- C16: the tolerance stored by the constructor, which is the one compared
with the dot product, is the input clamped to `[0, 1]`: 0 for an input below
0, 1 for an input above 1, and the input itself for an input between 0 and 1
(for the input `-0`, the equal value `+0`). -/
theorem GenAdaptivityMaskOp.tolerance_clamped (lvl : LevelSet) (indexTree : IndexTree)
    (x : Flt) :
    (x.lt (Flt.num 0) = true →
        (GenAdaptivityMaskOp.make lvl indexTree x).mEdgeTolerance = Flt.num 0) ∧
      ((Flt.num 1).lt x = true →
        (GenAdaptivityMaskOp.make lvl indexTree x).mEdgeTolerance = Flt.num 1) ∧
      ((Flt.num 0).le x = true → x.le (Flt.num 1) = true →
        (GenAdaptivityMaskOp.make lvl indexTree x).mEdgeTolerance.feq x = true ∧
          (x ≠ Flt.negZero → (GenAdaptivityMaskOp.make lvl indexTree x).mEdgeTolerance = x)) ∧
      (∀ (op : GenAdaptivityMaskOp) (ijk : Coord) (idx : Int) (normal : Vec3) (offset : Coord),
        op.neighbourTest ijk idx normal offset = true →
          (normal.dot (op.mLvl.face_normal
            (op.mLvl.vertTri (op.mIndexTree.getValue (ijk.add offset))))).lt
              op.mEdgeTolerance = true) := by
  rw [GenAdaptivityMaskOp.make_tolerance]
  refine ⟨?_, ?_, ?_, ?_⟩
  · intro h
    cases x with
    | num q =>
      have hq : q < 0 := by simpa [Flt.lt] using h
      have h0 : ¬ (0 < q) := by linarith
      simp only [if_neg h0]
    | negZero => rfl
    | pinf => simp [Flt.lt] at h
    | ninf => rfl
    | nan => rfl
  · intro h
    cases x with
    | num q =>
      have hq : 1 < q := by simpa [Flt.lt] using h
      have h0 : 0 < q := by linarith
      have h1 : ¬ (q < 1) := by linarith
      simp only [if_pos h0, if_neg h1]
    | negZero => revert h; norm_num [Flt.lt]
    | pinf => rfl
    | ninf => revert h; norm_num [Flt.lt]
    | nan => revert h; norm_num [Flt.lt]
  · intro h0 h1
    cases x with
    | num q =>
      have hq0 : 0 ≤ q := by simpa [Flt.le] using h0
      have hq1 : q ≤ 1 := by simpa [Flt.le] using h1
      rcases eq_or_lt_of_le hq0 with h | h
      · subst h
        simp [Flt.feq, Flt.le]
      · rcases eq_or_lt_of_le hq1 with h2 | h2
        · subst h2
          simp [Flt.feq, Flt.le]
        · simp [h, h2, Flt.feq, Flt.le]
    | negZero => simp [Flt.feq, Flt.le]
    | pinf => simp [Flt.le] at h1
    | ninf => simp [Flt.le] at h0
    | nan => simp [Flt.le] at h0
  · intro op ijk idx normal offset h
    unfold GenAdaptivityMaskOp.neighbourTest at h
    simp only [] at h
    split_ifs at h
    exact h

/-! ## Adaptivity mask builder: execution mode and inclusion -/

namespace GenAdaptivityMaskOp

theorem runParts_getElem? (op : GenAdaptivityMaskOp) (parts : List (Nat × Nat)) :
    ∀ (leafs : List Leaf) (n : Nat),
      (op.runParts leafs parts)[n]? =
        if ∃ r ∈ parts, r.1 ≤ n ∧ n < r.2 then leafs[n]?.map op.processLeaf else leafs[n]? := by
  induction parts with
  | nil => intro leafs n; simp [runParts]
  | cons r rest ih =>
    intro leafs n
    have hstep : op.runParts leafs (r :: rest) = op.runParts (op.operator leafs r.1 r.2) rest :=
      rfl
    rw [hstep, ih, operator_getElem?]
    by_cases hr : r.1 ≤ n ∧ n < r.2
    · have h1 : ∃ r2 ∈ r :: rest, r2.1 ≤ n ∧ n < r2.2 := ⟨r, List.mem_cons_self _ _, hr⟩
      rw [if_pos hr, if_pos h1]
      split_ifs
      · cases leafs[n]? with
        | none => rfl
        | some leaf => simp [processLeaf_idem]
      · rfl
    · rw [if_neg hr]
      by_cases h2 : ∃ r2 ∈ rest, r2.1 ≤ n ∧ n < r2.2
      · have h1 : ∃ r2 ∈ r :: rest, r2.1 ≤ n ∧ n < r2.2 := by
          obtain ⟨r2, hm, h⟩ := h2
          exact ⟨r2, List.mem_cons_of_mem _ hm, h⟩
        rw [if_pos h2, if_pos h1]
      · have h1 : ¬ ∃ r2 ∈ r :: rest, r2.1 ≤ n ∧ n < r2.2 := by
          rintro ⟨r2, hm, h⟩
          rcases List.mem_cons.1 hm with he | hm2
          · subst he; exact hr h
          · exact h2 ⟨r2, hm2, h⟩
        rw [if_neg h2, if_neg h1]

/-- C13: the mask does not depend on the execution mode: when the sub-ranges
`parts` cover exactly the leaf range (a partition of it, listed in any order),
applying `operator()` to them one after another yields the mask of one
sequential call over the whole range; for the whole leaf range this is the mask
of the sequential `run`. -/
theorem run_mode_independent (op : GenAdaptivityMaskOp) (leafs : List Leaf)
    (rbegin rend : Nat) (parts : List (Nat × Nat))
    (hcover : ∀ n, (∃ r ∈ parts, r.1 ≤ n ∧ n < r.2) ↔ (rbegin ≤ n ∧ n < rend)) :
    op.runParts leafs parts = op.operator leafs rbegin rend ∧
      (rbegin = 0 → rend = leafs.length → op.runParts leafs parts = op.run leafs) := by
  have key : op.runParts leafs parts = op.operator leafs rbegin rend := by
    apply List.ext_getElem?
    intro n
    rw [runParts_getElem?, operator_getElem?]
    by_cases h : rbegin ≤ n ∧ n < rend
    · rw [if_pos h, if_pos ((hcover n).2 h)]
    · rw [if_neg h, if_neg (fun h2 => h ((hcover n).1 h2))]
  refine ⟨key, ?_⟩
  intro hb he
  rw [key, hb, he]
  rfl

/-- Witness for C13: three leaves processed as the sub-ranges `[2,3)`, `[0,1)`,
`[1,2)`, in that order, against one call over `[0,3)`. -/
theorem run_mode_independent_witness :
    (∀ n, (∃ r ∈ [((2 : Nat), (3 : Nat)), (0, 1), (1, 2)], r.1 ≤ n ∧ n < r.2) ↔
        (0 ≤ n ∧ n < 3)) ∧
      (make exampleEdgeLvl exampleEdgeTree (Flt.num (1 / 2))).runParts
          [[(⟨0, 0, 0⟩, true)], [(⟨1, 0, 0⟩, true)], [(⟨5, 5, 5⟩, true)]]
          [(2, 3), (0, 1), (1, 2)] =
        (make exampleEdgeLvl exampleEdgeTree (Flt.num (1 / 2))).operator
          [[(⟨0, 0, 0⟩, true)], [(⟨1, 0, 0⟩, true)], [(⟨5, 5, 5⟩, true)]] 0 3 ∧
      (make exampleEdgeLvl exampleEdgeTree (Flt.num (1 / 2))).operator
          [[(⟨0, 0, 0⟩, true)], [(⟨1, 0, 0⟩, true)], [(⟨5, 5, 5⟩, true)]] 0 3 =
        [[(⟨0, 0, 0⟩, true)], [(⟨1, 0, 0⟩, true)], [(⟨5, 5, 5⟩, false)]] :=
  have hc : ∀ n, (∃ r ∈ [((2 : Nat), (3 : Nat)), (0, 1), (1, 2)], r.1 ≤ n ∧ n < r.2) ↔
      (0 ≤ n ∧ n < 3) := by
    intro n
    simp only [List.mem_cons, List.mem_singleton, exists_eq_or_imp, exists_eq_left,
      List.not_mem_nil, false_and, exists_false, or_false]
    omega
  ⟨hc, (run_mode_independent _ _ 0 3 _ hc).1, by decide!⟩

end GenAdaptivityMaskOp

namespace GenAdaptivityMaskOp

theorem mem_processLeaf_on (op : GenAdaptivityMaskOp) (leaf : Leaf) (ijk : Coord)
    (h : (ijk, true) ∈ op.processLeaf leaf) : (ijk, true) ∈ leaf := by
  unfold processLeaf at h
  obtain ⟨v, hv, he⟩ := List.mem_map.1 h
  obtain ⟨c, st⟩ := v
  cases st with
  | false =>
    simp only [Bool.false_eq_true, if_false, Prod.mk.injEq] at he
    exact absurd he.2 (by decide)
  | true =>
    simp only [if_true] at he
    split_ifs at he
    · rw [← he]; exact hv
    · simp only [Prod.mk.injEq] at he
      exact absurd he.2 (by decide)

theorem maskIsOn_of_operator (op : GenAdaptivityMaskOp) (leafs : List Leaf)
    (rbegin rend : Nat) (ijk : Coord) (h : maskIsOn (op.operator leafs rbegin rend) ijk) :
    maskIsOn leafs ijk := by
  obtain ⟨leaf2, hmem, hon⟩ := h
  obtain ⟨n, hn⟩ := List.mem_iff_getElem?.1 hmem
  rw [operator_getElem?] at hn
  split_ifs at hn
  · cases hl : leafs[n]? with
    | none => rw [hl] at hn; cases hn
    | some leaf =>
      rw [hl, Option.map_some', Option.some.injEq] at hn
      subst hn
      exact ⟨leaf, List.mem_iff_getElem?.2 ⟨n, hl⟩, mem_processLeaf_on op leaf ijk hon⟩
  · exact ⟨leaf2, List.mem_iff_getElem?.2 ⟨n, hn⟩, hon⟩

/-- C17 (as amended): the builder only deactivates voxels: every voxel that
is on after `operator()` has run was on before; hence, when every on voxel of
the input mask is an active voxel of the index grid, so is every voxel left
on. -/
theorem mask_only_deactivates (op : GenAdaptivityMaskOp) (leafs : List Leaf)
    (rbegin rend : Nat) :
    (∀ ijk, maskIsOn (op.operator leafs rbegin rend) ijk → maskIsOn leafs ijk) ∧
      ((∀ ijk, maskIsOn leafs ijk → op.mIndexTree.isValueOn ijk = true) →
        ∀ ijk, maskIsOn (op.operator leafs rbegin rend) ijk →
          op.mIndexTree.isValueOn ijk = true) :=
  ⟨fun ijk h => maskIsOn_of_operator op leafs rbegin rend ijk h,
    fun hin ijk h => hin ijk (maskIsOn_of_operator op leafs rbegin rend ijk h)⟩

/-- C17 (counterexample): the mask left by the builder need not be a strict
subset of the index grid's active voxels, nor a subset at all.  On the
two-voxel sharp edge every active voxel of the index grid is still on after
the run; and a mask voxel `(0,0,0)` that is not active in the index grid, next
to the active voxel `(1,0,0)` owned by a perpendicular triangle, is left on. -/
theorem mask_not_strict_subset :
    (∀ c, exampleEdgeTree.isValueOn c = true →
        maskIsOn ((make exampleEdgeLvl exampleEdgeTree (Flt.num (1 / 2))).run exampleEdgeLeafs)
          c) ∧
      (maskIsOn ((make exampleEdgeLvl exampleStrayTree (Flt.num (1 / 2))).run exampleStrayLeafs)
          ⟨0, 0, 0⟩ ∧
        exampleStrayTree.isValueOn ⟨0, 0, 0⟩ = false) := by
  have h1 : (make exampleEdgeLvl exampleEdgeTree (Flt.num (1 / 2))).run exampleEdgeLeafs =
      [[(⟨0, 0, 0⟩, true), (⟨1, 0, 0⟩, true)]] := by decide!
  have h2 : (make exampleEdgeLvl exampleStrayTree (Flt.num (1 / 2))).run exampleStrayLeafs =
      [[(⟨0, 0, 0⟩, true)]] := by decide!
  refine ⟨?_, ?_, by decide⟩
  · intro c hc
    rw [h1]
    simp only [exampleEdgeTree, Bool.or_eq_true, decide_eq_true_eq] at hc
    refine ⟨_, List.mem_singleton.2 rfl, ?_⟩
    rcases hc with h | h
    · subst h; simp
    · subst h; simp
  · rw [h2]
    exact ⟨_, List.mem_singleton.2 rfl, List.mem_singleton.2 rfl⟩

end GenAdaptivityMaskOp

/-! ## Publication of the refined buffer by concurrent workers -/

/-- C15 (failing input): two workers start from the same two-point buffer and
own the ranges `[0,1)` and `[1,2)`.  Each publishes its whole copy, in which
only its own index is refined, so the buffer that is published last overwrites
the other worker's update: in either publication order one of the two refined
positions is lost, while two calls that run one after the other (the second
copying the buffer the first has published) refine both. -/
theorem SharpenFeaturesOp.publish_loses_update :
    exampleClampOp.publishAll
        [Vec3.ofRat (1 / 4) (1 / 4) (1 / 4), Vec3.ofRat (1 / 4) (1 / 4) (1 / 4)]
        [(0, 1), (1, 2)] =
      [Vec3.ofRat (1 / 4) (1 / 4) (1 / 4), Vec3.ofRat (1 / 2) (3 / 5) (13 / 10)] ∧
    exampleClampOp.publishAll
        [Vec3.ofRat (1 / 4) (1 / 4) (1 / 4), Vec3.ofRat (1 / 4) (1 / 4) (1 / 4)]
        [(1, 2), (0, 1)] =
      [Vec3.ofRat (1 / 2) (3 / 5) (13 / 10), Vec3.ofRat (1 / 4) (1 / 4) (1 / 4)] ∧
    exampleClampOp.operator
        (exampleClampOp.operator
          [Vec3.ofRat (1 / 4) (1 / 4) (1 / 4), Vec3.ofRat (1 / 4) (1 / 4) (1 / 4)] 0 1) 1 2 =
      [Vec3.ofRat (1 / 2) (3 / 5) (13 / 10), Vec3.ofRat (1 / 2) (3 / 5) (13 / 10)] := by
  refine ⟨by decide!, by decide!, by decide!⟩

/-! ## `AABBox::intersect` from an origin inside the box -/

namespace Flt

theorem mul_num_of_ne (a b : ℚ) (h : a * b ≠ 0) : mul (num a) (num b) = num (a * b) := by
  simp only [mul, toRat?, if_neg h]

/-- One slab for an origin strictly between the planes and a finite non-zero
direction component: the near parameter is the negative number at which the
ray meets the plane behind it, the far parameter the positive number at which
it meets the plane ahead. -/
theorem slab_inside (lo hi o d : ℚ) (hlo : lo < o) (hhi : o < hi) (hd : d ≠ 0) :
    ((if boolToInt (((num 1).div (num d)).lt (num 0)) = 0 then num lo else num hi).sub
        (num o)).mul ((num 1).div (num d)) = num (((if 0 < d then lo else hi) - o) / d) ∧
    ((if 1 - boolToInt (((num 1).div (num d)).lt (num 0)) = 0 then num lo else num hi).sub
        (num o)).mul ((num 1).div (num d)) = num (((if 0 < d then hi else lo) - o) / d) ∧
    ((if 0 < d then lo else hi) - o) / d < 0 ∧ 0 < ((if 0 < d then hi else lo) - o) / d := by
  rcases lt_or_gt_of_ne hd with hneg | hpos
  · have hinv : (1 : ℚ) / d < 0 := by rw [one_div]; exact inv_lt_zero.2 hneg
    have hsg : (num (1 / d)).lt (num 0) = true := by simpa [lt] using hinv
    have hnp : ¬ (0 < d) := not_lt.2 (le_of_lt hneg)
    rw [div_one_num d hd]
    simp only [hsg, boolToInt, if_true, if_false, one_ne_zero, Nat.sub_self, sub_num,
      if_neg hnp]
    have e1 : (hi - o) * (1 / d) ≠ 0 := mul_ne_zero (by linarith) (ne_of_lt hinv)
    have e2 : (lo - o) * (1 / d) ≠ 0 := mul_ne_zero (by linarith) (ne_of_lt hinv)
    rw [mul_num_of_ne _ _ e1, mul_num_of_ne _ _ e2, mul_one_div, mul_one_div]
    refine ⟨rfl, rfl, ?_, ?_⟩
    · exact div_neg_of_pos_of_neg (by linarith) hneg
    · exact div_pos_of_neg_of_neg (by linarith) hneg
  · have hinv : 0 < (1 : ℚ) / d := by rw [one_div]; exact inv_pos.2 hpos
    have hsg : (num (1 / d)).lt (num 0) = false := by simpa [lt] using le_of_lt hinv
    rw [div_one_num d hd]
    simp only [hsg, boolToInt, if_true, if_false, Bool.false_eq_true, Nat.sub_zero,
      one_ne_zero, sub_num, if_pos hpos]
    have e1 : (lo - o) * (1 / d) ≠ 0 := mul_ne_zero (by linarith) (ne_of_gt hinv)
    have e2 : (hi - o) * (1 / d) ≠ 0 := mul_ne_zero (by linarith) (ne_of_gt hinv)
    rw [mul_num_of_ne _ _ e1, mul_num_of_ne _ _ e2, mul_one_div, mul_one_div]
    refine ⟨rfl, rfl, ?_, ?_⟩
    · exact div_neg_of_neg_of_pos (by linarith) hpos
    · exact div_pos (by linarith) hpos

end Flt

open Flt in
/-- The slab test when the six slab parameters are finite, the near ones
negative and the far ones positive: `intersect` falls back to the far
parameter and returns the smallest of the three. -/
theorem AABBox.intersect_exit (b : AABBox) (r : Ray) (t0 : Flt) (a1 f1 a2 f2 a3 f3 : ℚ)
    (hx1 : ((b.bounds r.sign0).x.sub r.orig.x).mul r.invdir.x = num a1)
    (hx2 : ((b.bounds (1 - r.sign0)).x.sub r.orig.x).mul r.invdir.x = num f1)
    (hy1 : ((b.bounds r.sign1).y.sub r.orig.y).mul r.invdir.y = num a2)
    (hy2 : ((b.bounds (1 - r.sign1)).y.sub r.orig.y).mul r.invdir.y = num f2)
    (hz1 : ((b.bounds r.sign2).z.sub r.orig.z).mul r.invdir.z = num a3)
    (hz2 : ((b.bounds (1 - r.sign2)).z.sub r.orig.z).mul r.invdir.z = num f3)
    (ha1 : a1 < 0) (ha2 : a2 < 0) (ha3 : a3 < 0) (hf1 : 0 < f1) (hf2 : 0 < f2) (hf3 : 0 < f3) :
    b.intersect r t0 = (true, num (min f1 (min f2 f3))) := by
  unfold AABBox.intersect
  simp only [hx1, hx2, hy1, hy2, hz1, hz2]
  have e1 : (num a1).gt (num f2) = false := by
    simp only [gt, lt, decide_eq_false_iff_not, not_lt]; linarith
  have e2 : (num a2).gt (num f1) = false := by
    simp only [gt, lt, decide_eq_false_iff_not, not_lt]; linarith
  simp only [e1, e2, Bool.or_self, Bool.false_eq_true, if_false]
  have hm2 : (if (num a2).gt (num a1) = true then num a2 else num a1) = num (max a1 a2) := by
    simp only [gt, lt, decide_eq_true_eq]
    split_ifs with h
    · rw [max_eq_right (le_of_lt h)]
    · rw [max_eq_left (not_lt.1 h)]
  have hM2 : (if (num f2).lt (num f1) = true then num f2 else num f1) = num (min f1 f2) := by
    simp only [lt, decide_eq_true_eq]
    split_ifs with h
    · rw [min_eq_right (le_of_lt h)]
    · rw [min_eq_left (not_lt.1 h)]
  rw [hm2, hM2]
  have hmax2 : max a1 a2 < 0 := max_lt ha1 ha2
  have hmin2 : 0 < min f1 f2 := lt_min hf1 hf2
  have e3 : (num (max a1 a2)).gt (num f3) = false := by
    simp only [gt, lt, decide_eq_false_iff_not, not_lt]; linarith
  have e4 : (num a3).gt (num (min f1 f2)) = false := by
    simp only [gt, lt, decide_eq_false_iff_not, not_lt]; linarith
  simp only [e3, e4, Bool.or_self, Bool.false_eq_true, if_false]
  have hm3 : (if (num a3).gt (num (max a1 a2)) = true then num a3 else num (max a1 a2)) =
      num (max (max a1 a2) a3) := by
    simp only [gt, lt, decide_eq_true_eq]
    split_ifs with h
    · rw [max_eq_right (le_of_lt h)]
    · rw [max_eq_left (not_lt.1 h)]
  have hM3 : (if (num f3).lt (num (min f1 f2)) = true then num f3 else num (min f1 f2)) =
      num (min f1 (min f2 f3)) := by
    simp only [lt, decide_eq_true_eq]
    split_ifs with h
    · rw [← min_assoc, min_eq_right (le_of_lt h)]
    · rw [← min_assoc, min_eq_left (not_lt.1 h)]
  rw [hm3, hM3]
  have hmax3 : max (max a1 a2) a3 < 0 := max_lt hmax2 ha3
  have hmin3 : 0 < min f1 (min f2 f3) := lt_min hf1 (lt_min hf2 hf3)
  have e5 : (num (max (max a1 a2) a3)).lt (num 0) = true := by simpa [lt] using hmax3
  have e6 : (num (min f1 (min f2 f3))).lt (num 0) = false := by
    simpa [lt] using le_of_lt hmin3
  simp only [e5, e6, if_true, Bool.false_eq_true, if_false]

theorem axis_exit (lo hi o d τ : ℚ) (hlo : lo < o) (hhi : o < hi) (hd : d ≠ 0) (hτ : 0 < τ)
    (hle : τ ≤ ((if 0 < d then hi else lo) - o) / d) :
    (lo ≤ o + d * τ ∧ o + d * τ ≤ hi) ∧
      (τ = ((if 0 < d then hi else lo) - o) / d → o + d * τ = lo ∨ o + d * τ = hi) := by
  rcases lt_or_gt_of_ne hd with hneg | hpos
  · have hnp : ¬ (0 < d) := not_lt.2 (le_of_lt hneg)
    rw [if_neg hnp] at hle ⊢
    have hf : d * ((lo - o) / d) = lo - o := by field_simp
    have h1 : d * ((lo - o) / d) ≤ d * τ := mul_le_mul_of_nonpos_left hle (le_of_lt hneg)
    have h2 : d * τ < 0 := mul_neg_of_neg_of_pos hneg hτ
    refine ⟨⟨by linarith, by linarith⟩, ?_⟩
    intro he
    left
    rw [he, hf]; ring
  · rw [if_pos hpos] at hle ⊢
    have hf : d * ((hi - o) / d) = hi - o := by field_simp
    have h1 : d * τ ≤ d * ((hi - o) / d) := mul_le_mul_of_nonneg_left hle (le_of_lt hpos)
    have h2 : 0 < d * τ := mul_pos hpos hτ
    refine ⟨⟨by linarith, by linarith⟩, ?_⟩
    intro he
    right
    rw [he, hf]; ring

/-- C18: for a box with finite bounds and a ray whose finite origin lies
strictly inside it and whose direction has finite components, none of them
zero, `intersect` returns `true` with `t` equal to the exit parameter `tmax`,
the smallest of the three far slab parameters; `t` is positive (not zero) and
`orig + t * dir` lies on the boundary of the box. -/
theorem AABBox.intersect_exit_of_origin_inside
    (lox loy loz hix hiy hiz ox oy oz dx dy dz : ℚ) (t0 : Flt)
    (hx : lox < ox ∧ ox < hix) (hy : loy < oy ∧ oy < hiy) (hz : loz < oz ∧ oz < hiz)
    (hdx : dx ≠ 0) (hdy : dy ≠ 0) (hdz : dz ≠ 0) :
    ∃ τ : ℚ,
      τ = min (((if 0 < dx then hix else lox) - ox) / dx)
        (min (((if 0 < dy then hiy else loy) - oy) / dy)
          (((if 0 < dz then hiz else loz) - oz) / dz)) ∧
      0 < τ ∧
      (AABBox.mk (Vec3.ofRat lox loy loz) (Vec3.ofRat hix hiy hiz)).intersect
        (Ray.make (Vec3.ofRat ox oy oz) (Vec3.ofRat dx dy dz)) t0 = (true, Flt.num τ) ∧
      (BBox.mk (Vec3.ofRat lox loy loz) (Vec3.ofRat hix hiy hiz)).onBoundary
        ((Vec3.ofRat ox oy oz).add ((Vec3.ofRat dx dy dz).scale (Flt.num τ))) = true := by
  obtain ⟨nx, fx, nxneg, fxpos⟩ := Flt.slab_inside lox hix ox dx hx.1 hx.2 hdx
  obtain ⟨ny, fy, nyneg, fypos⟩ := Flt.slab_inside loy hiy oy dy hy.1 hy.2 hdy
  obtain ⟨nz, fz, nzneg, fzpos⟩ := Flt.slab_inside loz hiz oz dz hz.1 hz.2 hdz
  have hτ : 0 < min (((if 0 < dx then hix else lox) - ox) / dx)
      (min (((if 0 < dy then hiy else loy) - oy) / dy)
        (((if 0 < dz then hiz else loz) - oz) / dz)) := lt_min fxpos (lt_min fypos fzpos)
  refine ⟨_, rfl, hτ, ?_, ?_⟩
  · apply AABBox.intersect_exit _ _ _ _ _ _ _ _ _ ?_ ?_ ?_ ?_ ?_ ?_ nxneg nyneg nzneg fxpos
      fypos fzpos
    · simpa only [Ray.make, Vec3.rdiv, Vec3.ofRat, AABBox.bounds_x] using nx
    · simpa only [Ray.make, Vec3.rdiv, Vec3.ofRat, AABBox.bounds_x] using fx
    · simpa only [Ray.make, Vec3.rdiv, Vec3.ofRat, AABBox.bounds_y] using ny
    · simpa only [Ray.make, Vec3.rdiv, Vec3.ofRat, AABBox.bounds_y] using fy
    · simpa only [Ray.make, Vec3.rdiv, Vec3.ofRat, AABBox.bounds_z] using nz
    · simpa only [Ray.make, Vec3.rdiv, Vec3.ofRat, AABBox.bounds_z] using fz
  · generalize hτdef : min (((if 0 < dx then hix else lox) - ox) / dx)
      (min (((if 0 < dy then hiy else loy) - oy) / dy)
        (((if 0 < dz then hiz else loz) - oz) / dz)) = τ at hτ
    have lx : τ ≤ ((if 0 < dx then hix else lox) - ox) / dx := by
      rw [← hτdef]; exact min_le_left _ _
    have ly : τ ≤ ((if 0 < dy then hiy else loy) - oy) / dy := by
      rw [← hτdef]; exact le_trans (min_le_right _ _) (min_le_left _ _)
    have lz : τ ≤ ((if 0 < dz then hiz else loz) - oz) / dz := by
      rw [← hτdef]; exact le_trans (min_le_right _ _) (min_le_right _ _)
    obtain ⟨bx, ex⟩ := axis_exit lox hix ox dx τ hx.1 hx.2 hdx hτ lx
    obtain ⟨by1, ey⟩ := axis_exit loy hiy oy dy τ hy.1 hy.2 hdy hτ ly
    obtain ⟨bz, ez⟩ := axis_exit loz hiz oz dz τ hz.1 hz.2 hdz hτ lz
    have hpt : (Vec3.ofRat ox oy oz).add ((Vec3.ofRat dx dy dz).scale (Flt.num τ)) =
        Vec3.ofRat (ox + dx * τ) (oy + dy * τ) (oz + dz * τ) := by
      simp only [Vec3.add, Vec3.scale, Vec3.ofRat, Flt.mul_num_pos _ _ hτ, Flt.add_num]
    rw [hpt]
    apply BBox.onBoundary_ofRat _ _ _ _ _ _ _ _ _ bx by1 bz
    have hsel : τ = ((if 0 < dx then hix else lox) - ox) / dx ∨
        τ = ((if 0 < dy then hiy else loy) - oy) / dy ∨
        τ = ((if 0 < dz then hiz else loz) - oz) / dz := by
      rw [← hτdef]
      rcases min_choice (((if 0 < dx then hix else lox) - ox) / dx)
        (min (((if 0 < dy then hiy else loy) - oy) / dy)
          (((if 0 < dz then hiz else loz) - oz) / dz)) with h | h
      · exact Or.inl h
      · rw [h]
        rcases min_choice (((if 0 < dy then hiy else loy) - oy) / dy)
          (((if 0 < dz then hiz else loz) - oz) / dz) with h2 | h2
        · exact Or.inr (Or.inl h2)
        · exact Or.inr (Or.inr h2)
    rcases hsel with h | h | h
    · exact Or.inl (ex h)
    · exact Or.inr (Or.inl (ey h))
    · exact Or.inr (Or.inr (ez h))

/-- Witness for C18: the box `[-1,1]^3`, the origin `(0, 1/2, 0)` and the
direction `(1, 2, -1)`: the far parameters are 1, 1/4 and 1, and `t = 1/4`. -/
theorem AABBox.intersect_exit_of_origin_inside_witness :
    (∃ τ : ℚ,
      τ = min (((if (0 : ℚ) < 1 then (1 : ℚ) else -1) - 0) / 1)
        (min (((if (0 : ℚ) < 2 then (1 : ℚ) else -1) - (1 / 2)) / 2)
          (((if (0 : ℚ) < -1 then (1 : ℚ) else -1) - 0) / -1)) ∧
      0 < τ ∧
      (AABBox.mk (Vec3.ofRat (-1) (-1) (-1)) (Vec3.ofRat 1 1 1)).intersect
        (Ray.make (Vec3.ofRat 0 (1 / 2) 0) (Vec3.ofRat 1 2 (-1))) Flt.nan = (true, Flt.num τ) ∧
      (BBox.mk (Vec3.ofRat (-1) (-1) (-1)) (Vec3.ofRat 1 1 1)).onBoundary
        ((Vec3.ofRat 0 (1 / 2) 0).add ((Vec3.ofRat 1 2 (-1)).scale (Flt.num τ))) = true) ∧
    (AABBox.mk (Vec3.ofRat (-1) (-1) (-1)) (Vec3.ofRat 1 1 1)).intersect
        (Ray.make (Vec3.ofRat 0 (1 / 2) 0) (Vec3.ofRat 1 2 (-1))) Flt.nan =
      (true, Flt.num (1 / 4)) :=
  ⟨AABBox.intersect_exit_of_origin_inside (-1) (-1) (-1) 1 1 1 0 (1 / 2) 0 1 2 (-1) Flt.nan
    ⟨by norm_num, by norm_num⟩ ⟨by norm_num, by norm_num⟩ ⟨by norm_num, by norm_num⟩
    (by norm_num) (by norm_num) (by norm_num), by decide!⟩

/-! ## The clamp step with a zero direction -/

namespace Flt

theorem toRat?_mul_pinf (x : Flt) : (x.mul pinf).toRat? = none := by
  cases x <;> simp [mul, toRat?, isNaN, inf] <;> split_ifs <;> rfl

theorem zero_mul_of_not_finite {t : Flt} (h : t.toRat? = none) : (num 0).mul t = nan := by
  cases t <;> simp [toRat?] at h <;> simp [mul, toRat?, isNaN]

theorem add_nan (a : ℚ) : (num a).add nan = nan := by
  simp [add, toRat?]

end Flt

/-- When none of the six slab parameters is finite, a reported hit comes with
a `t` that is not finite. -/
theorem AABBox.intersect_not_finite (b : AABBox) (r : Ray) (t0 : Flt)
    (hx1 : (((b.bounds r.sign0).x.sub r.orig.x).mul r.invdir.x).toRat? = none)
    (hx2 : (((b.bounds (1 - r.sign0)).x.sub r.orig.x).mul r.invdir.x).toRat? = none)
    (hy1 : (((b.bounds r.sign1).y.sub r.orig.y).mul r.invdir.y).toRat? = none)
    (hy2 : (((b.bounds (1 - r.sign1)).y.sub r.orig.y).mul r.invdir.y).toRat? = none)
    (hz1 : (((b.bounds r.sign2).z.sub r.orig.z).mul r.invdir.z).toRat? = none)
    (hz2 : (((b.bounds (1 - r.sign2)).z.sub r.orig.z).mul r.invdir.z).toRat? = none)
    (hit : (b.intersect r t0).1 = true) : (b.intersect r t0).2.toRat? = none := by
  unfold AABBox.intersect at hit ⊢
  simp only [] at hit ⊢
  generalize ((b.bounds r.sign0).x.sub r.orig.x).mul r.invdir.x = tmin at *
  generalize ((b.bounds (1 - r.sign0)).x.sub r.orig.x).mul r.invdir.x = tmax at *
  generalize ((b.bounds r.sign1).y.sub r.orig.y).mul r.invdir.y = tymin at *
  generalize ((b.bounds (1 - r.sign1)).y.sub r.orig.y).mul r.invdir.y = tymax at *
  generalize ((b.bounds r.sign2).z.sub r.orig.z).mul r.invdir.z = tzmin at *
  generalize ((b.bounds (1 - r.sign2)).z.sub r.orig.z).mul r.invdir.z = tzmax at *
  split_ifs at hit ⊢ <;> assumption

/-- The clamp step from a finite solved point with the zero direction: when
`intersect` reports a hit the point becomes NaN in every coordinate,
otherwise it is kept. -/
theorem SharpenFeaturesOp.clamp_zero_direction (cell : BBox) (sx sy sz : ℚ) :
    (if ((AABBox.mk cell.min cell.max).intersect
          (Ray.make (Vec3.ofRat sx sy sz) (Vec3.ofRat 0 0 0)) Flt.nan).1 = true then
        (Vec3.ofRat sx sy sz).add ((Vec3.ofRat 0 0 0).scale
          ((AABBox.mk cell.min cell.max).intersect
            (Ray.make (Vec3.ofRat sx sy sz) (Vec3.ofRat 0 0 0)) Flt.nan).2)
      else Vec3.ofRat sx sy sz) =
    if ((AABBox.mk cell.min cell.max).intersect
          (Ray.make (Vec3.ofRat sx sy sz) (Vec3.ofRat 0 0 0)) Flt.nan).1 = true then
        (⟨Flt.nan, Flt.nan, Flt.nan⟩ : Vec3)
      else Vec3.ofRat sx sy sz := by
  split_ifs with hit
  · have hnf := AABBox.intersect_not_finite (AABBox.mk cell.min cell.max)
      (Ray.make (Vec3.ofRat sx sy sz) (Vec3.ofRat 0 0 0)) Flt.nan
      (by simp only [Ray.make, Vec3.rdiv, Vec3.ofRat, Flt.div_one_zero, Flt.toRat?_mul_pinf])
      (by simp only [Ray.make, Vec3.rdiv, Vec3.ofRat, Flt.div_one_zero, Flt.toRat?_mul_pinf])
      (by simp only [Ray.make, Vec3.rdiv, Vec3.ofRat, Flt.div_one_zero, Flt.toRat?_mul_pinf])
      (by simp only [Ray.make, Vec3.rdiv, Vec3.ofRat, Flt.div_one_zero, Flt.toRat?_mul_pinf])
      (by simp only [Ray.make, Vec3.rdiv, Vec3.ofRat, Flt.div_one_zero, Flt.toRat?_mul_pinf])
      (by simp only [Ray.make, Vec3.rdiv, Vec3.ofRat, Flt.div_one_zero, Flt.toRat?_mul_pinf])
      hit
    generalize (AABBox.mk cell.min cell.max).intersect
      (Ray.make (Vec3.ofRat sx sy sz) (Vec3.ofRat 0 0 0)) Flt.nan = R at hnf
    simp only [Vec3.add, Vec3.scale, Vec3.ofRat, Flt.zero_mul_of_not_finite hnf, Flt.add_nan]
  · rfl

/-- C14 (as amended): the clamp step has no guard for a zero-length
direction.  For a processed point with at least 2 intersection points whose
finite solved point is not inside the expanded cell and equals the centroid,
with `normalize` returning the zero vector unchanged, the ray is still
intersected with the cell: the written position is the index-to-world image of
the point with NaN in every coordinate when `intersect` reports a hit, and of
the unclamped solved point when it reports none. -/
theorem SharpenFeaturesOp.zero_direction_not_guarded (op : SharpenFeaturesOp)
    (out_points : List Vec3) (rbegin rend i : Nat) (p : Vec3) (sx sy sz : ℚ)
    (hr : rbegin ≤ i ∧ i < rend) (hp : out_points[i]? = some p)
    (hmask : op.maskedOut (op.voxelOf p) = false)
    (hcount : 2 ≤ (op.getEdgeData (op.voxelOf p)).1.length)
    (hsol : op.findFeaturePoint (op.getEdgeData (op.voxelOf p)).1
      (op.gather (op.getEdgeData (op.voxelOf p)).1).2 = Vec3.ofRat sx sy sz)
    (hout : (SharpenFeaturesOp.cellOf (op.voxelOf p)).isInside (Vec3.ofRat sx sy sz) = false)
    (hcen : centroid (op.getEdgeData (op.voxelOf p)).1 = Vec3.ofRat sx sy sz)
    (hnorm : op.normalize (Vec3.ofRat 0 0 0) = Vec3.ofRat 0 0 0) :
    (op.operator out_points rbegin rend)[i]? =
      some (op.indexToWorld
        (if ((AABBox.mk (SharpenFeaturesOp.cellOf (op.voxelOf p)).min
              (SharpenFeaturesOp.cellOf (op.voxelOf p)).max).intersect
            (Ray.make (Vec3.ofRat sx sy sz) (Vec3.ofRat 0 0 0)) Flt.nan).1 = true then
          (⟨Flt.nan, Flt.nan, Flt.nan⟩ : Vec3)
        else Vec3.ofRat sx sy sz)) := by
  have hdelta : (Vec3.ofRat sx sy sz).sub (Vec3.ofRat sx sy sz) = Vec3.ofRat 0 0 0 := by
    simp only [Vec3.sub, Vec3.ofRat, Flt.sub_num, sub_self]
  rw [SharpenFeaturesOp.result_getElem?, if_pos hr, hp, Option.map_some',
    SharpenFeaturesOp.refine_of_outside op p hmask hcount (by rw [hsol]; exact hout),
    SharpenFeaturesOp.clamp_eq, hsol, hcen, hdelta, hnorm,
    SharpenFeaturesOp.clamp_zero_direction]

/-- Witness for C14 (as amended): the solved point and the centroid are both
`(-1, 1/2, 1/2)`; `intersect` reports a hit with `t = inf` and the written
position is NaN in every coordinate. -/
theorem SharpenFeaturesOp.zero_direction_not_guarded_witness :
    (exampleZeroDirOp.operator [Vec3.ofRat (1 / 4) (1 / 4) (1 / 4)] 0 1)[0]? =
        some (exampleZeroDirOp.indexToWorld
          (if ((AABBox.mk
                (SharpenFeaturesOp.cellOf
                  (exampleZeroDirOp.voxelOf (Vec3.ofRat (1 / 4) (1 / 4) (1 / 4)))).min
                (SharpenFeaturesOp.cellOf
                  (exampleZeroDirOp.voxelOf (Vec3.ofRat (1 / 4) (1 / 4) (1 / 4)))).max).intersect
              (Ray.make (Vec3.ofRat (-1) (1 / 2) (1 / 2)) (Vec3.ofRat 0 0 0)) Flt.nan).1 = true
          then (⟨Flt.nan, Flt.nan, Flt.nan⟩ : Vec3)
          else Vec3.ofRat (-1) (1 / 2) (1 / 2))) ∧
      (AABBox.mk
          (SharpenFeaturesOp.cellOf
            (exampleZeroDirOp.voxelOf (Vec3.ofRat (1 / 4) (1 / 4) (1 / 4)))).min
          (SharpenFeaturesOp.cellOf
            (exampleZeroDirOp.voxelOf (Vec3.ofRat (1 / 4) (1 / 4) (1 / 4)))).max).intersect
        (Ray.make (Vec3.ofRat (-1) (1 / 2) (1 / 2)) (Vec3.ofRat 0 0 0)) Flt.nan =
      (true, Flt.pinf) :=
  ⟨SharpenFeaturesOp.zero_direction_not_guarded exampleZeroDirOp
    [Vec3.ofRat (1 / 4) (1 / 4) (1 / 4)] 0 1 0 (Vec3.ofRat (1 / 4) (1 / 4) (1 / 4))
    (-1) (1 / 2) (1 / 2) (by decide) (by rfl) (by rfl) (by decide) (by rfl) (by decide!)
    (by decide!) (by rfl), by decide!⟩

/-- C14 (counterexample): in the clamp step with the centroid equal to the
solved point `(-1, 1/2, 1/2)` (not inside the expanded cell of voxel
`(0,0,0)`), the position written is NaN in every coordinate, not the
index-to-world image of the unclamped solved point. -/
theorem SharpenFeaturesOp.zero_direction_writes_nan :
    centroid (exampleZeroDirOp.getEdgeData
        (exampleZeroDirOp.voxelOf (Vec3.ofRat (1 / 4) (1 / 4) (1 / 4)))).1 =
      exampleZeroDirOp.findFeaturePoint
        (exampleZeroDirOp.getEdgeData
          (exampleZeroDirOp.voxelOf (Vec3.ofRat (1 / 4) (1 / 4) (1 / 4)))).1
        (exampleZeroDirOp.gather
          (exampleZeroDirOp.getEdgeData
            (exampleZeroDirOp.voxelOf (Vec3.ofRat (1 / 4) (1 / 4) (1 / 4)))).1).2 ∧
    (SharpenFeaturesOp.cellOf
        (exampleZeroDirOp.voxelOf (Vec3.ofRat (1 / 4) (1 / 4) (1 / 4)))).isInside
      (Vec3.ofRat (-1) (1 / 2) (1 / 2)) = false ∧
    exampleZeroDirOp.operator [Vec3.ofRat (1 / 4) (1 / 4) (1 / 4)] 0 1 =
      [⟨Flt.nan, Flt.nan, Flt.nan⟩] ∧
    (exampleZeroDirOp.operator [Vec3.ofRat (1 / 4) (1 / 4) (1 / 4)] 0 1)[0]? ≠
      some (exampleZeroDirOp.indexToWorld (Vec3.ofRat (-1) (1 / 2) (1 / 2))) := by
  refine ⟨by decide!, by decide!, by decide!, by decide!⟩

/-! ## The clamp step when the ray misses the cell -/

end OpenVDBMesher
